import Mathlib

/-!
Shallow embedding of the Flight-Planner core (coverage path generation,
waypoint synthesis, terrain-elevation merge, waypoint filtering, mission
statistics, batched elevation fetch) and proofs about it.

Geometry primitives (turf.js: `lineIntersect`, `length`, `along`, `distance`,
`bearing`, `destination`, `transformRotate`, `lengthToDegrees`) are external
dependencies of the source; they are modelled as abstract functions collected
in a `Geo` record.  All numeric computation is embedded over `ℚ` with exact
arithmetic.
-/

namespace FlightPlanner

/-- A geographic point `[x, y]` (longitude, latitude), as turf coordinates. -/
abbrev Pt := ℚ × ℚ

/-- `FlightParams` from `types.ts` (numeric fields; `altitudeMode` is not used
by the embedded computations). -/
structure FlightParams where
  altitude : ℚ
  frontOverlap : ℚ
  sideOverlap : ℚ
  speed : ℚ
  gimbalPitch : ℚ
  flightDirection : ℚ
deriving DecidableEq

/-- `CameraParams` from `types.ts`. -/
structure CameraParams where
  sensorWidth : ℚ
  sensorHeight : ℚ
  focalLength : ℚ
  imageWidth : ℚ
  imageHeight : ℚ
deriving DecidableEq

/-- `Waypoint` from `types.ts`. -/
structure Waypoint where
  lat : ℚ
  lng : ℚ
  altitude : ℚ
  heading : ℚ
  gimbalPitch : ℚ
  speed : ℚ
deriving DecidableEq

instance : Inhabited Waypoint := ⟨⟨0, 0, 0, 0, 0, 0⟩⟩

/-- `FilterParams` from `types.ts` (`keepStart`/`keepEnd` are non-negative
integers, enforced by the UI input handler). -/
structure FilterParams where
  enabled : Bool
  keepStart : Nat
  keepEnd : Nat

/-- The loop `for (let currentY = minY; currentY <= maxY; currentY += dy)`:
the list of values the loop variable takes.  The source loop diverges for a
non-positive step; that configuration is unreachable (the spacing guard
ensures a positive spacing) and is modelled as an empty traversal. -/
def climbList (a b d : ℚ) : List ℚ :=
  if h : 0 < d ∧ a ≤ b then a :: climbList (a + d) b d else []
termination_by (⌊(b - a) / d⌋ + 1).toNat
decreasing_by
  have hd : 0 < d := h.1
  have hkey : (b - (a + d)) / d = (b - a) / d - 1 := by
    field_simp
    ring
  have hfl : ⌊(b - (a + d)) / d⌋ = ⌊(b - a) / d⌋ - 1 := by
    rw [hkey, Int.floor_sub_one]
  have hnn : (0 : ℚ) ≤ (b - a) / d := div_nonneg (by linarith [h.2]) (le_of_lt hd)
  have hfnn : 0 ≤ ⌊(b - a) / d⌋ := Int.floor_nonneg.mpr hnn
  omega

/-- Number of iterations the sweep loop performs (for a positive step). -/
def climbCount (a b d : ℚ) : Nat :=
  if a ≤ b then (⌊(b - a) / d⌋ + 1).toNat else 0

/-- Comparison used by `coords.sort((a, b) => a[0] - b[0])`: order by X. -/
def ptLeX (a b : Pt) : Prop := a.1 ≤ b.1

instance : DecidableRel ptLeX := fun a b => inferInstanceAs (Decidable (a.1 ≤ b.1))

instance : IsTotal Pt ptLeX := ⟨fun a b => le_total a.1 b.1⟩

instance : IsTrans Pt ptLeX := ⟨fun _ _ _ => le_trans⟩

/-- `coords.sort((a, b) => a[0] - b[0])`: a stable sort by ascending X
(modelled with insertion sort). -/
def sortByX (l : List Pt) : List Pt := List.insertionSort ptLeX l

/-- The inner pairing loop
`for (let i = 0; i < coords.length; i += 2) if (coords[i+1]) push(lineString([coords[i], coords[i+1]]))`:
consecutive sorted intersections are paired; a trailing unpaired point is
dropped. -/
def pairUp : List Pt → List (Pt × Pt)
  | a :: b :: rest => (a, b) :: pairUp rest
  | _ => []

/-- The geometry primitives the source delegates to turf.js, together with the
context (rotated survey region and its bounding box) they are applied to.
`inter y` is `turf.lineIntersect(lineString([[minX, y], [maxX, y]]), rotatedFeature)`
as the list of intersection coordinates; `length`, `along`, `dist`, `bearing`,
`dest` are `turf.length` / `turf.along` (on a 2-point line) / `turf.distance` /
`turf.bearing` / `turf.destination` in meters; `rotateBack` is
`turf.transformRotate` by `+bearing` about the centroid, applied to a point;
`lengthToDegrees` is `turf.lengthToDegrees(·, 'meters')`. -/
structure Geo where
  minX : ℚ
  minY : ℚ
  maxX : ℚ
  maxY : ℚ
  inter : ℚ → List Pt
  lengthToDegrees : ℚ → ℚ
  length : Pt → Pt → ℚ
  along : Pt → Pt → ℚ → Pt
  dist : Pt → Pt → ℚ
  rotateBack : Pt → Pt
  bearing : Pt → Pt → ℚ
  dest : Pt → ℚ → ℚ → Pt

/-- One sweep row of the flight-line loop body: intersect the horizontal line
at height `y` with the rotated region, and if there is more than one
intersection point, sort by X and pair consecutively. -/
def rowSegments (geo : Geo) (y : ℚ) : List (Pt × Pt) :=
  let coords := geo.inter y
  if coords.length > 0 then
    if coords.length > 1 then pairUp (sortByX coords) else []
  else []

/-- Step 5 of `generateFlightPlan`: the whole sweep loop, `dy` being
`turf.lengthToDegrees(distanceSideTrack, 'meters')`. -/
def sweepFlightLines (geo : Geo) (dy : ℚ) : List (Pt × Pt) :=
  (climbList geo.minY geo.maxY dy).flatMap (fun y => rowSegments geo y)

/-- A footprint polygon ring (the single linear ring of `turf.polygon`). -/
abbrev Footprint := List Pt

/-- `gsd = (altitude * sensorWidth) / (focalLength * imageWidth)`. -/
def gsdOf (flightParams : FlightParams) (cameraParams : CameraParams) : ℚ :=
  flightParams.altitude * cameraParams.sensorWidth /
    (cameraParams.focalLength * cameraParams.imageWidth)

/-- `footprintWidth = gsd * imageWidth` (across track). -/
def footprintWidthOf (flightParams : FlightParams) (cameraParams : CameraParams) : ℚ :=
  gsdOf flightParams cameraParams * cameraParams.imageWidth

/-- `footprintHeight = gsd * imageHeight` (along track). -/
def footprintHeightOf (flightParams : FlightParams) (cameraParams : CameraParams) : ℚ :=
  gsdOf flightParams cameraParams * cameraParams.imageHeight

/-- `distanceAlongTrack = footprintHeight * (1 - frontOverlap / 100)`. -/
def distanceAlongTrackOf (flightParams : FlightParams) (cameraParams : CameraParams) : ℚ :=
  footprintHeightOf flightParams cameraParams * (1 - flightParams.frontOverlap / 100)

/-- `distanceSideTrack = footprintWidth * (1 - sideOverlap / 100)`. -/
def distanceSideTrackOf (flightParams : FlightParams) (cameraParams : CameraParams) : ℚ :=
  footprintWidthOf flightParams cameraParams * (1 - flightParams.sideOverlap / 100)

/-- Step 6 body for one flight line: place a point every `dAT` meters from the
start (`for (let d = 0; d <= lineLength; d += distanceAlongTrack)`), then
append the line's endpoint when the last stepped point is more than 1 meter
away from it.  The `getLastD` default is never consulted: the endpoint check
is guarded by `0 < lineLength` (JS short-circuit `&&`), which forces the
stepped list to contain at least the `d = 0` point. -/
def lineWaypoints (geo : Geo) (dAT : ℚ) (ln : Pt × Pt) : List Pt :=
  let lineLength := geo.length ln.1 ln.2
  let wps := (climbList 0 lineLength dAT).map (fun d => geo.along ln.1 ln.2 d)
  if 0 < lineLength ∧ 1 < geo.dist (wps.getLastD (geo.along ln.1 ln.2 0)) ln.2 then
    wps ++ [ln.2]
  else wps

/-- Step 6: waypoints per flight line; every odd-indexed line is reversed
(`if (index % 2 !== 0) waypointsOnLine.reverse()`). -/
def sweepWaypoints (geo : Geo) (dAT : ℚ) (flightLines : List (Pt × Pt)) : List (List Pt) :=
  flightLines.enum.map (fun p =>
    let waypointsOnLine := lineWaypoints geo dAT p.2
    if p.1 % 2 ≠ 0 then waypointsOnLine.reverse else waypointsOnLine)

/-- `finalWaypoints[i + 1] || finalWaypoints[i - 1] || wp` — JS `||` over
possibly-undefined array accesses (index `-1` is also undefined). -/
def nextFor (wps : List Pt) (i : Nat) (wp : Pt) : Pt :=
  match wps[i + 1]? with
  | some p => p
  | none =>
    match (if i = 0 then none else wps[i - 1]?) with
    | some p => p
    | none => wp

/-- Step 8 body: one formatted waypoint together with its footprint polygon
ring, created atomically in the same `map` iteration. -/
def mkWaypointAndFootprint (geo : Geo) (flightParams : FlightParams)
    (footprintWidth footprintHeight : ℚ) (finalWps : List Pt) (i : Nat) (wp : Pt) :
    Waypoint × Footprint :=
  let nextWp := nextFor finalWps i wp
  let heading := geo.bearing wp nextWp
  let halfAlongTrackM := footprintHeight / 2
  let halfAcrossTrackM := footprintWidth / 2
  let forwardCenter := geo.dest wp halfAlongTrackM heading
  let backwardCenter := geo.dest wp halfAlongTrackM (heading - 180)
  let tl := geo.dest forwardCenter halfAcrossTrackM (heading - 90)
  let tr := geo.dest forwardCenter halfAcrossTrackM (heading + 90)
  let br := geo.dest backwardCenter halfAcrossTrackM (heading + 90)
  let bl := geo.dest backwardCenter halfAcrossTrackM (heading - 90)
  ({ lat := wp.2, lng := wp.1, altitude := flightParams.altitude,
     heading := if heading < 0 then heading + 360 else heading,
     gimbalPitch := flightParams.gimbalPitch, speed := flightParams.speed },
   [tl, tr, br, bl, tl])

/-- Step 8: `finalWaypoints.map((wp, i) => ...)` producing the formatted
waypoints and the parallel `footprintPolygons` collection. -/
def formatWaypoints (geo : Geo) (flightParams : FlightParams) (fw fh : ℚ)
    (finalWps : List Pt) : List (Waypoint × Footprint) :=
  finalWps.enum.map (fun p => mkWaypointAndFootprint geo flightParams fw fh finalWps p.1 p.2)

/-- Final re-structuring: `slice(currentIndex, currentIndex + line.length)`
with a running index, i.e. splitting a flat list by the per-line lengths. -/
def chunkBy {α : Type} : List Nat → List α → List (List α)
  | [], _ => []
  | n :: ns, l => l.take n :: chunkBy ns (l.drop n)

/-- `generateFlightPlan` from `services/flightPlanner.ts`, over abstract
geometry `geo` (which already carries the rotated region's bounding box and
intersection oracle — steps 3–4 of the source compute exactly this context).
The two `throw new Error(...)` sites become `Except.error`. -/
def generateFlightPlan (geo : Geo) (flightParams : FlightParams)
    (cameraParams : CameraParams) :
    Except String (List (List Waypoint) × List Footprint) :=
  if distanceSideTrackOf flightParams cameraParams ≤ 0 ∨
      distanceAlongTrackOf flightParams cameraParams ≤ 0 then
    Except.error "Overlap values must be less than 100%."
  else
    let flightLines := sweepFlightLines geo
        (geo.lengthToDegrees (distanceSideTrackOf flightParams cameraParams))
    let waypointsByLine := sweepWaypoints geo
        (distanceAlongTrackOf flightParams cameraParams) flightLines
    let allWaypoints := waypointsByLine.flatten
    let finalWaypoints := allWaypoints.map geo.rotateBack
    if finalWaypoints.length = 0 then
      Except.error
        "Could not generate waypoints. The survey area may be too small for the given parameters."
    else
      let formatted := formatWaypoints geo flightParams
          (footprintWidthOf flightParams cameraParams)
          (footprintHeightOf flightParams cameraParams) finalWaypoints
      Except.ok
        (chunkBy (waypointsByLine.map List.length) (formatted.map Prod.fst),
         formatted.map Prod.snd)

/-- The two footprint-collecting `for` loops of the filtering effect: collect
`originalFootprints.features[off + i]` for `i < n`, skipping indices that do
not exist (`if (originalFootprints.features[...])`). -/
def collectFps (ofps : List Footprint) (off : Nat) : Nat → List Footprint
  | 0 => []
  | n + 1 => collectFps ofps off n ++ (ofps[off + n]?).toList

/-- The `originalWaypoints.forEach(line => ...)` of the filtering effect,
with `flatWaypointIndex` as the running flat offset. -/
def filterLoop (keepStart keepEnd : Nat) (ofps : List Footprint) :
    List (List Waypoint) → Nat → List Waypoint × List Footprint
  | [], _ => ([], [])
  | line :: rest, flatWaypointIndex =>
    let lineLength := line.length
    let res := filterLoop keepStart keepEnd ofps rest (flatWaypointIndex + lineLength)
    if lineLength ≤ keepStart + keepEnd then
      (line ++ res.1, collectFps ofps flatWaypointIndex lineLength ++ res.2)
    else
      let startWps := line.take keepStart
      let endWps := line.drop (lineLength - keepEnd)
      ((startWps ++ endWps) ++ res.1,
       (collectFps ofps flatWaypointIndex keepStart ++
          collectFps ofps (flatWaypointIndex + (lineLength - keepEnd)) keepEnd) ++ res.2)

/-- The filtering `useEffect` of `App.tsx`: derives the active waypoints and
footprints from the canonical (original) plan.  A `null` footprint collection
or an empty canonical plan yields the empty active view. -/
def filterEffect (filterParams : FilterParams) (originalWaypoints : List (List Waypoint))
    (originalFootprints : Option (List Footprint)) :
    List Waypoint × Option (List Footprint) :=
  match originalFootprints with
  | none => ([], none)
  | some ofps =>
    if originalWaypoints.length = 0 then ([], none)
    else if filterParams.enabled = false then (originalWaypoints.flatten, some ofps)
    else
      let res := filterLoop filterParams.keepStart filterParams.keepEnd ofps
          originalWaypoints 0
      (res.1, some res.2)

/-- Per-line selection the filter performs, as the claim states it (the
theorems identify `filterLoop` with mapping this over the lines). -/
def keepLine {α : Type} (keepStart keepEnd : Nat) (line : List α) : List α :=
  if line.length ≤ keepStart + keepEnd then line
  else line.take keepStart ++ line.drop (line.length - keepEnd)

/-- Elevation samples: one `number | null` per flattened waypoint. -/
abbrev Elevations := List (Option ℚ)

/-- `Number((x).toFixed(2))`: rounding to 2 decimal places. -/
def roundTo2 (x : ℚ) : ℚ := (round (x * 100) : ℤ) / 100

/-- The per-waypoint body of `handleFetchTerrainData`'s merge: a `null`
elevation leaves the waypoint unchanged, a numeric one replaces the altitude
by `elevation + flightParams.altitude` rounded to 2 decimals. -/
def mergeWp (altitude : ℚ) (wp : Waypoint) (e : Option ℚ) : Waypoint :=
  match e with
  | none => wp
  | some elevation => { wp with altitude := roundTo2 (elevation + altitude) }

/-- `line.map(wp => ...)` with the running `waypointIndex`.  An out-of-range
sample access (unreachable when the sample list is aligned with the flattened
waypoints, as `getElevations` guarantees) is modelled as leaving the waypoint
unchanged. -/
def mergeLine (altitude : ℚ) (elevations : Elevations) :
    List Waypoint → Nat → List Waypoint
  | [], _ => []
  | wp :: rest, waypointIndex =>
    mergeWp altitude wp (elevations.getD waypointIndex none) ::
      mergeLine altitude elevations rest (waypointIndex + 1)

/-- `originalWaypoints.map(line => ...)` of the altitude merge. -/
def mergeLinesFrom (altitude : ℚ) (elevations : Elevations) :
    List (List Waypoint) → Nat → List (List Waypoint)
  | [], _ => []
  | line :: rest, waypointIndex =>
    mergeLine altitude elevations line waypointIndex ::
      mergeLinesFrom altitude elevations rest (waypointIndex + line.length)

/-- The altitude merge of `handleFetchTerrainData`: elevations are matched to
the canonical flattened waypoint sequence by the running `waypointIndex`. -/
def mergeAltitudes (altitude : ℚ) (originalWaypoints : List (List Waypoint))
    (elevations : Elevations) : List (List Waypoint) :=
  mergeLinesFrom altitude elevations originalWaypoints 0

/-- Outcome of one batch request in `getElevations`: a non-OK HTTP response,
a JSON payload without a proper `elevation` array, a payload with an
`elevation` array (whose length the source then checks against the batch),
or a thrown network error. -/
inductive FetchResult where
  | notOk : FetchResult
  | malformed : FetchResult
  | ok : List (Option ℚ) → FetchResult
  | thrown : FetchResult

/-- `const BATCH_SIZE = 50`. -/
def BATCH_SIZE : Nat := 50

/-- `data.elevation.forEach((elevation, index) => allElevations[i + index] = elevation)`. -/
def writeBatch : List (Option ℚ) → Nat → List (Option ℚ) → List (Option ℚ)
  | acc, _, [] => acc
  | acc, i, e :: es => writeBatch (acc.set i e) (i + 1) es

/-- The body of one iteration of the batch loop of `getElevations`: slice the
batch, issue the request (outcome given by the oracle `fetchBatch` for the
batch starting at flat index `i`), and on a successful, correctly-sized
payload write it into `allElevations` at the batch's positions.  Every
failure outcome (`continue` after a non-OK response or malformed/mismatched
payload, or the `catch` of a thrown error) leaves `allElevations` untouched. -/
def elevStep (fetchBatch : Nat → FetchResult) (waypoints : List Waypoint) (i : Nat)
    (allElevations : List (Option ℚ)) : List (Option ℚ) :=
  let batch := (waypoints.drop i).take BATCH_SIZE
  match fetchBatch i with
  | FetchResult.notOk => allElevations
  | FetchResult.malformed => allElevations
  | FetchResult.ok elevs =>
    if elevs.length ≠ batch.length then allElevations
    else writeBatch allElevations i elevs
  | FetchResult.thrown => allElevations

/-- The batch loop `for (let i = 0; i < waypoints.length; i += BATCH_SIZE)` of
`getElevations`, batches processed sequentially. -/
def elevLoop (fetchBatch : Nat → FetchResult) (waypoints : List Waypoint) (i : Nat)
    (allElevations : List (Option ℚ)) : List (Option ℚ) :=
  if _h : i < waypoints.length then
    elevLoop fetchBatch waypoints (i + BATCH_SIZE)
      (elevStep fetchBatch waypoints i allElevations)
  else allElevations
termination_by waypoints.length - i
decreasing_by simp only [BATCH_SIZE]; omega

/-- `getElevations` from `services/elevationService.ts`: an all-`null` result
array of the input length, filled in by sequential batches of `BATCH_SIZE`. -/
def getElevations (fetchBatch : Nat → FetchResult) (waypoints : List Waypoint) :
    List (Option ℚ) :=
  if waypoints.length = 0 then []
  else elevLoop fetchBatch waypoints 0 (List.replicate waypoints.length none)

/-- The per-position outcome claim C7 describes: position `j` receives the
`j % 50`-th value of its batch (the one starting at `50 * (j / 50)`) when that
batch's request succeeded with a correctly-sized payload, and stays unknown
(`none`) otherwise. -/
def specElev (fetchBatch : Nat → FetchResult) (waypoints : List Waypoint) (j : Nat) :
    Option ℚ :=
  match fetchBatch (BATCH_SIZE * (j / BATCH_SIZE)) with
  | FetchResult.ok l =>
    if l.length = min BATCH_SIZE (waypoints.length - BATCH_SIZE * (j / BATCH_SIZE)) then
      l.getD (j % BATCH_SIZE) none
    else none
  | _ => none

/-- `turf.point([wp.lng, wp.lat])`. -/
def toPt (wp : Waypoint) : Pt := (wp.lng, wp.lat)

/-- The distance-summing loop of the stats effect:
`for (i = 0; i < waypoints.length - 1; i++) totalDistance += turf.distance(...)`. -/
def pathLength (dist : Pt → Pt → ℚ) : List Waypoint → ℚ
  | a :: b :: rest => dist (toPt a) (toPt b) + pathLength dist (b :: rest)
  | _ => 0

/-- Truncation toward zero, as JS `%` applies to its operands' quotient. -/
def ratTrunc (x : ℚ) : ℤ := if 0 ≤ x then ⌊x⌋ else ⌈x⌉

/-- The JS remainder `a % b` (floating `fmod`, sign of the dividend). -/
def jsFmod (a b : ℚ) : ℚ := a - b * (ratTrunc (a / b) : ℚ)

/-- `Stats` from `types.ts`.  The source renders `flightTime` as the string
`MM:SS` from the two floored components and `totalDistance` / `dataVolume`
via `toFixed(2)`; the embedding keeps the numeric contents (the floored
minute/second components and the 2-decimal rounded values). -/
structure Stats where
  totalWaypoints : Nat
  flightLines : Nat
  flightMinutes : ℤ
  flightSeconds : ℤ
  totalDistance : ℚ
  photoCount : Nat
  dataVolume : ℚ
deriving DecidableEq

/-- The mission-statistics `useEffect` of `App.tsx` over an abstract
great-circle distance `dist` (`turf.distance`, meters). -/
def computeStats (dist : Pt → Pt → ℚ) (waypoints : List Waypoint)
    (originalWaypoints : List (List Waypoint)) (speed : ℚ)
    (cameraParams : CameraParams) : Option Stats :=
  if waypoints.length = 0 ∨ originalWaypoints.length = 0 then none
  else
    let totalDistance := pathLength dist waypoints
    let flightTimeSeconds := totalDistance / speed
    let minutes := ⌊flightTimeSeconds / 60⌋
    let seconds := ⌊jsFmod flightTimeSeconds 60⌋
    let photoCount := waypoints.length
    let totalPixels := (photoCount : ℚ) * cameraParams.imageWidth * cameraParams.imageHeight
    some
      { totalWaypoints := waypoints.length,
        flightLines := originalWaypoints.length,
        flightMinutes := minutes,
        flightSeconds := seconds,
        totalDistance := roundTo2 (totalDistance / 1000),
        photoCount := photoCount,
        dataVolume := roundTo2 (totalPixels / 1000000000) }

/-- Modelled from the spec's words for claim C3: "the bearing to waypoint
i-1 reversed, normalized to [0,360)" — the reverse (`+180`) of the bearing
from the last waypoint to its predecessor, reduced into `[0, 360)`. -/
def norm360 (x : ℚ) : ℚ := x - 360 * (⌊x / 360⌋ : ℚ)

/-- Modelled from the spec's words for claim C3: the heading the claim
prescribes for the last waypoint. -/
def specLastHeading (geo : Geo) (wps : List Pt) : ℚ :=
  norm360 (geo.bearing (wps.getD (wps.length - 1) (0, 0))
    (wps.getD (wps.length - 2) (0, 0)) + 180)

/-- A degenerate geometry context (empty region) used to instantiate
hypothesis-bearing theorems at a concrete input. -/
def trivGeo : Geo where
  minX := 0
  minY := 0
  maxX := 0
  maxY := -1
  inter := fun _ => []
  lengthToDegrees := fun x => x
  length := fun _ _ => 0
  along := fun _ _ _ => (0, 0)
  dist := fun _ _ => 0
  rotateBack := id
  bearing := fun _ _ => 0
  dest := fun p _ _ => p

/-- A geometry context whose bearings are `90` from `(0,1)` back to `(0,0)`
and `0` otherwise (a realistic spherical bearing assignment for points on a
meridian), used for the heading claim. -/
def geoC3 : Geo :=
  { trivGeo with
    bearing := fun p q => if p = ((0 : ℚ), (1 : ℚ)) ∧ q = ((0 : ℚ), (0 : ℚ)) then 90 else 0 }

/-- A geometry context on which `generateFlightPlan` succeeds with a single
flight line: one sweep row at `y = 0` with two intersection points. -/
def geoOk : Geo where
  minX := 0
  minY := 0
  maxX := 1
  maxY := 0
  inter := fun _ => [((0 : ℚ), (0 : ℚ)), ((1 : ℚ), (0 : ℚ))]
  lengthToDegrees := fun x => x
  length := fun _ _ => 3
  along := fun _ _ d => (d, 0)
  dist := fun _ _ => 0
  rotateBack := id
  bearing := fun _ _ => 0
  dest := fun p _ _ => p

/-- Concrete flight parameters for witnesses. -/
def fpOk : FlightParams where
  altitude := 1
  frontOverlap := 0
  sideOverlap := 0
  speed := 1
  gimbalPitch := 0
  flightDirection := 0

/-- Concrete camera parameters for witnesses (`gsd = 1`, `footprintWidth = 1`,
`footprintHeight = 5`, so `distanceAlongTrack = 5`, `distanceSideTrack = 1`). -/
def camOk : CameraParams where
  sensorWidth := 1
  sensorHeight := 1
  focalLength := 1
  imageWidth := 1
  imageHeight := 5

/-- Concrete filter parameters for witnesses. -/
def fparW : FilterParams where
  enabled := true
  keepStart := 1
  keepEnd := 1

/-- The points at distances `0, dAT, 2·dAT, …` (up to the line length) from
the start of a flight line, as the claim describes them; the waypoint
theorems identify the stepping loop with this list. -/
def steppedPoints (geo : Geo) (dAT : ℚ) (ln : Pt × Pt) : List Pt :=
  (List.range (climbCount 0 (geo.length ln.1 ln.2) dAT)).map
    (fun k : ℕ => geo.along ln.1 ln.2 ((k : ℚ) * dAT))

/-- The plan `generateFlightPlan geoOk fpOk camOk` produces: one line, one
waypoint at the origin. -/
def wlinesOk : List (List Waypoint) :=
  [[{ lat := 0, lng := 0, altitude := 1, heading := 0, gimbalPitch := 0, speed := 1 }]]

/-- The footprints of that plan: one degenerate ring at the origin. -/
def fpsOk : List Footprint :=
  [[((0 : ℚ), (0 : ℚ)), (0, 0), (0, 0), (0, 0), (0, 0)]]

section Lemmas

lemma climbCount_step (a b d : ℚ) (hd : 0 < d) (hab : a ≤ b) :
    climbCount a b d = climbCount (a + d) b d + 1 := by
  have hnn : (0 : ℚ) ≤ (b - a) / d := div_nonneg (by linarith) (le_of_lt hd)
  have hfnn : 0 ≤ ⌊(b - a) / d⌋ := Int.floor_nonneg.mpr hnn
  by_cases h2 : a + d ≤ b
  · have hkey : (b - (a + d)) / d = (b - a) / d - 1 := by field_simp; ring
    have hfl : ⌊(b - (a + d)) / d⌋ = ⌊(b - a) / d⌋ - 1 := by
      rw [hkey, Int.floor_sub_one]
    simp only [climbCount, if_pos hab, if_pos h2, hfl]
    omega
  · have hlt : b - a < d := by linarith
    have hx1 : (b - a) / d < 1 := (div_lt_one hd).mpr hlt
    have hfl0 : ⌊(b - a) / d⌋ = 0 := by
      have := Int.floor_eq_zero_iff.mpr ⟨hnn, hx1⟩
      simpa using this
    simp only [climbCount, if_pos hab, if_neg h2, hfl0]
    rfl

lemma climbCount_zero_of_not_le (a b d : ℚ) (hab : ¬ a ≤ b) :
    climbCount a b d = 0 := by
  simp [climbCount, hab]

lemma climbCount_pos (a b d : ℚ) (hd : 0 < d) (hab : a ≤ b) :
    0 < climbCount a b d := by
  rw [climbCount_step a b d hd hab]
  omega

/-- The sweep loop visits exactly `a + k * d` for `k < climbCount a b d`. -/
lemma climbList_eq_range (a b d : ℚ) (hd : 0 < d) :
    climbList a b d = (List.range (climbCount a b d)).map (fun k : ℕ => a + (k : ℚ) * d) := by
  generalize hn : climbCount a b d = n
  induction n generalizing a with
  | zero =>
    have hab : ¬ a ≤ b := by
      intro hab
      have := climbCount_pos a b d hd hab
      omega
    rw [climbList]
    simp [hab]
  | succ n ih =>
    have hab : a ≤ b := by
      by_contra hab
      rw [climbCount_zero_of_not_le a b d hab] at hn
      omega
    have hrec : climbCount (a + d) b d = n := by
      have := climbCount_step a b d hd hab
      omega
    rw [climbList]
    rw [dif_pos ⟨hd, hab⟩, ih (a + d) hrec]
    rw [List.range_succ_eq_map, List.map_cons, List.map_map]
    congr 1
    · simp
    · apply List.map_congr_left
      intro k _
      simp only [Function.comp_apply]
      push_cast
      ring

/-- Membership bound: row `k` exists iff `a + k * d ≤ b`. -/
lemma climbCount_lt_iff (a b d : ℚ) (hd : 0 < d) (k : ℕ) :
    k < climbCount a b d ↔ a + k * d ≤ b := by
  by_cases hab : a ≤ b
  · rw [climbCount, if_pos hab]
    have hnn : (0 : ℚ) ≤ (b - a) / d := div_nonneg (by linarith) (le_of_lt hd)
    have hfnn : 0 ≤ ⌊(b - a) / d⌋ := Int.floor_nonneg.mpr hnn
    rw [show a + (k : ℚ) * d ≤ b ↔ (k : ℚ) ≤ (b - a) / d by
      rw [le_div_iff₀ hd]; constructor <;> intro h <;> linarith]
    rw [show ((k : ℚ) ≤ (b - a) / d) ↔ ((k : ℤ) ≤ ⌊(b - a) / d⌋) by
      rw [Int.le_floor]; push_cast; rfl]
    omega
  · rw [climbCount_zero_of_not_le a b d hab]
    push_neg at hab
    have : ¬ (a + (k : ℚ) * d ≤ b) := by
      have : (0 : ℚ) ≤ (k : ℚ) * d := mul_nonneg (by positivity) (le_of_lt hd)
      intro h
      linarith
    simp [this]

@[simp] lemma pairUp_nil : pairUp [] = [] := rfl

@[simp] lemma pairUp_single (a : Pt) : pairUp [a] = [] := rfl

@[simp] lemma pairUp_cons_cons (a b : Pt) (l : List Pt) :
    pairUp (a :: b :: l) = (a, b) :: pairUp l := rfl

lemma pairUp_length (l : List Pt) : (pairUp l).length = l.length / 2 := by
  induction l using pairUp.induct with
  | case1 a b rest ih => simp [ih]; omega
  | case2 t h =>
    cases t with
    | nil => simp
    | cons a t' =>
      cases t' with
      | nil => simp
      | cons b rest => exact (h a b rest rfl).elim

lemma pairUp_getD (l : List Pt) (j : ℕ) (hj : 2 * j + 1 < l.length) :
    (pairUp l).getD j ((0, 0), (0, 0)) =
      (l.getD (2 * j) (0, 0), l.getD (2 * j + 1) (0, 0)) := by
  induction l using pairUp.induct generalizing j with
  | case1 a b rest ih =>
    cases j with
    | zero => simp
    | succ j =>
      simp only [pairUp_cons_cons] at *
      have hj' : 2 * j + 1 < rest.length := by
        simp at hj
        omega
      have := ih j hj'
      simpa [show 2 * (j + 1) = (2 * j + 1) + 1 by omega, List.getD_cons_succ] using this
  | case2 t h =>
    cases t with
    | nil => simp at hj
    | cons a t' =>
      cases t' with
      | nil => simp at hj
      | cons b rest => exact (h a b rest rfl).elim

lemma pairUp_append_singleton (l : List Pt) (x : Pt) (hl : l.length % 2 = 0) :
    pairUp (l ++ [x]) = pairUp l := by
  induction l using pairUp.induct with
  | case1 a b rest ih =>
    simp only [List.cons_append, pairUp_cons_cons]
    rw [ih]
    simp at hl
    omega
  | case2 t h =>
    cases t with
    | nil => simp
    | cons a t' =>
      cases t' with
      | nil => simp at hl
      | cons b rest => exact (h a b rest rfl).elim

lemma sortByX_length (l : List Pt) : (sortByX l).length = l.length := by
  simpa [sortByX] using (List.perm_insertionSort ptLeX l).length_eq

/-- The guards in the row body collapse: for fewer than two intersection
points `pairUp ∘ sortByX` is empty anyway. -/
lemma rowSegments_eq (geo : Geo) (y : ℚ) :
    rowSegments geo y = pairUp (sortByX (geo.inter y)) := by
  unfold rowSegments
  cases h : geo.inter y with
  | nil => simp [sortByX]
  | cons a t =>
    cases t with
    | nil => simp [sortByX, List.insertionSort]
    | cons b t' => simp

end Lemmas

/-- **C1.**  For every normalized survey region (abstracted by its rotated
bounding box and intersection oracle `geo.inter`) and positive sweep step
`dy = lengthToDegrees distanceSideTrack`, the coverage-path sweep produces
exactly: for each row `y = minY + k * dy` with `y ≤ maxY` (and no other rows),
the intersection points sorted by ascending X and paired consecutively, one
segment per complete pair; `pairUp` pairs the `2j`-th with the `2j+1`-th point,
drops the trailing unpaired point of an odd-length row, and yields no segment
from rows with fewer than two intersection points; the sorted row is a
permutation of the intersections ordered by ascending X. -/
theorem C1_coverage_path (geo : Geo) (dy : ℚ) (hdy : 0 < dy) :
    (sweepFlightLines geo dy
      = (List.range (climbCount geo.minY geo.maxY dy)).flatMap
          (fun k : ℕ => pairUp (sortByX (geo.inter (geo.minY + (k : ℚ) * dy)))))
    ∧ (∀ k : ℕ, (k < climbCount geo.minY geo.maxY dy ↔ geo.minY + (k : ℚ) * dy ≤ geo.maxY))
    ∧ (∀ l : List Pt, (sortByX l).Perm l ∧ (sortByX l).Sorted ptLeX)
    ∧ (∀ l : List Pt, (pairUp l).length = l.length / 2)
    ∧ (∀ (l : List Pt) (j : ℕ), 2 * j + 1 < l.length →
        (pairUp l).getD j ((0, 0), (0, 0)) =
          (l.getD (2 * j) (0, 0), l.getD (2 * j + 1) (0, 0)))
    ∧ (∀ (l : List Pt) (x : Pt), l.length % 2 = 0 → pairUp (l ++ [x]) = pairUp l) := by
  refine ⟨?_, ?_, ?_, pairUp_length, pairUp_getD, pairUp_append_singleton⟩
  · unfold sweepFlightLines
    rw [climbList_eq_range geo.minY geo.maxY dy hdy, List.flatMap_map]
    exact List.flatMap_congr (fun k _ => rowSegments_eq geo _)
  · intro k
    exact climbCount_lt_iff geo.minY geo.maxY dy hdy k
  · intro l
    exact ⟨List.perm_insertionSort ptLeX l, List.sorted_insertionSort ptLeX l⟩

lemma lineWaypoints_eq (geo : Geo) (dAT : ℚ) (ln : Pt × Pt) (hd : 0 < dAT) :
    lineWaypoints geo dAT ln =
      if 0 < geo.length ln.1 ln.2 ∧
          1 < geo.dist ((steppedPoints geo dAT ln).getLastD (geo.along ln.1 ln.2 0)) ln.2 then
        steppedPoints geo dAT ln ++ [ln.2]
      else steppedPoints geo dAT ln := by
  have hmap : (climbList 0 (geo.length ln.1 ln.2) dAT).map (fun d => geo.along ln.1 ln.2 d)
      = steppedPoints geo dAT ln := by
    rw [climbList_eq_range 0 (geo.length ln.1 ln.2) dAT hd, List.map_map]
    apply List.map_congr_left
    intro k _
    simp
  simp only [lineWaypoints, hmap]

/-- **C2.**  For a backbone segment of positive length `L` and positive
along-track spacing `dAT`, the synthesizer produces the points at distances
`0, dAT, 2·dAT, … ≤ L` (exactly those multiples — second conjunct), appends
the segment endpoint if and only if the last stepped point is more than
1 meter from it, so the endpoint is always included up to that 1-meter merge
(third conjunct), and every odd-indexed segment's point order is reversed
while even-indexed segments keep their generated order (fourth conjunct). -/
theorem C2_waypoint_synthesis (geo : Geo) (ln : Pt × Pt) (dAT : ℚ)
    (hL : 0 < geo.length ln.1 ln.2) (hd : 0 < dAT) :
    (lineWaypoints geo dAT ln =
      if 1 < geo.dist ((steppedPoints geo dAT ln).getLastD (geo.along ln.1 ln.2 0)) ln.2 then
        steppedPoints geo dAT ln ++ [ln.2]
      else steppedPoints geo dAT ln)
    ∧ (∀ k : ℕ, (k < climbCount 0 (geo.length ln.1 ln.2) dAT ↔
        (k : ℚ) * dAT ≤ geo.length ln.1 ln.2))
    ∧ ((lineWaypoints geo dAT ln).getLast? = some ln.2 ∨
        geo.dist ((lineWaypoints geo dAT ln).getLastD (geo.along ln.1 ln.2 0)) ln.2 ≤ 1)
    ∧ (∀ (lines : List (Pt × Pt)) (i : ℕ), i < lines.length →
        (sweepWaypoints geo dAT lines).getD i [] =
          (if i % 2 = 1 then (lineWaypoints geo dAT (lines.getD i ((0, 0), (0, 0)))).reverse
           else lineWaypoints geo dAT (lines.getD i ((0, 0), (0, 0))))) := by
  have hiff : ∀ k : ℕ, (k < climbCount 0 (geo.length ln.1 ln.2) dAT ↔
      (k : ℚ) * dAT ≤ geo.length ln.1 ln.2) := by
    intro k
    have := climbCount_lt_iff 0 (geo.length ln.1 ln.2) dAT hd k
    simpa using this
  have heq := lineWaypoints_eq geo dAT ln hd
  refine ⟨?_, hiff, ?_, ?_⟩
  · rw [heq]
    simp [hL]
  · by_cases hdist :
        1 < geo.dist ((steppedPoints geo dAT ln).getLastD (geo.along ln.1 ln.2 0)) ln.2
    · left
      rw [heq, if_pos ⟨hL, hdist⟩]
      exact List.getLast?_concat _
    · right
      rw [heq, if_neg (fun hc => hdist hc.2)]
      linarith [not_lt.mp hdist]
  · intro lines i hi
    have hgd : (sweepWaypoints geo dAT lines)[i]? =
        some (let waypointsOnLine := lineWaypoints geo dAT (lines.getD i ((0, 0), (0, 0)))
          if i % 2 ≠ 0 then waypointsOnLine.reverse else waypointsOnLine) := by
      unfold sweepWaypoints
      rw [List.getElem?_map, List.getElem?_enum]
      have : lines[i]? = some (lines.getD i ((0, 0), (0, 0))) := by
        rw [List.getD_eq_getElem?_getD, List.getElem?_eq_getElem hi]
        rfl
      rw [this]
      rfl
    rw [List.getD_eq_getElem?_getD, hgd]
    by_cases hpar : i % 2 = 1
    · have : i % 2 ≠ 0 := by omega
      simp [this, hpar]
    · have : ¬ (i % 2 ≠ 0) := by omega
      simp [this, hpar]

lemma formatWaypoints_fst_getElem? (geo : Geo) (fp : FlightParams) (fw fh : ℚ)
    (wps : List Pt) (i : Nat) (hi : i < wps.length) :
    ((formatWaypoints geo fp fw fh wps).map Prod.fst)[i]? =
      some (mkWaypointAndFootprint geo fp fw fh wps i (wps.getD i (0, 0))).1 := by
  unfold formatWaypoints
  rw [List.getElem?_map, List.getElem?_map, List.getElem?_enum]
  have : wps[i]? = some (wps.getD i (0, 0)) := by
    rw [List.getD_eq_getElem?_getD, List.getElem?_eq_getElem hi]
    rfl
  rw [this]
  rfl

lemma mkWaypointAndFootprint_heading (geo : Geo) (fp : FlightParams) (fw fh : ℚ)
    (finalWps : List Pt) (i : Nat) (wp : Pt) :
    (mkWaypointAndFootprint geo fp fw fh finalWps i wp).1.heading =
      (if geo.bearing wp (nextFor finalWps i wp) < 0 then
        geo.bearing wp (nextFor finalWps i wp) + 360
      else geo.bearing wp (nextFor finalWps i wp)) := rfl

/-- **C3 (counterexample).**  The claim prescribes, for the last waypoint,
the *reverse* (`+180`, normalized) of the bearing towards waypoint `i-1`; the
code uses that bearing unreversed.  With the realistic meridian bearings of
`geoC3` (bearing `(0,1) → (0,0)` is `90` here to make the discrepancy
unambiguous), the code's last heading is `90` while the claim's value is
`270`. -/
theorem C3_counterexample :
    (((formatWaypoints geoC3 fpOk 1 1 [((0 : ℚ), (0 : ℚ)), ((0 : ℚ), (1 : ℚ))]).map
        Prod.fst).getD 1 default).heading = 90
    ∧ specLastHeading geoC3 [((0 : ℚ), (0 : ℚ)), ((0 : ℚ), (1 : ℚ))] = 270
    ∧ (90 : ℚ) ≠ 270 := by
  refine ⟨by decide, by norm_num [specLastHeading, geoC3, trivGeo, norm360], by norm_num⟩

/-- **C3 (amended).**  For every generated plan with at least two flattened
waypoints: the heading of every non-last waypoint `i` is the bearing from
waypoint `i` to waypoint `i+1`, normalized to `[0, 360)`; the heading of the
last waypoint is the bearing from it to waypoint `i-1` (pointing back along
the line, not reversed), normalized to `[0, 360)`; and, provided the bearing
primitive yields values in `(-180, 180]` (as `turf.bearing` does), every
heading lies in `[0, 360)`. -/
theorem C3_headings (geo : Geo) (fp : FlightParams) (fw fh : ℚ) (wps : List Pt)
    (h2 : 2 ≤ wps.length)
    (hb : ∀ p q : Pt, -180 < geo.bearing p q ∧ geo.bearing p q ≤ 180) :
    (∀ i : ℕ, i + 1 < wps.length →
      (((formatWaypoints geo fp fw fh wps).map Prod.fst).getD i default).heading =
        (if geo.bearing (wps.getD i (0, 0)) (wps.getD (i + 1) (0, 0)) < 0 then
          geo.bearing (wps.getD i (0, 0)) (wps.getD (i + 1) (0, 0)) + 360
        else geo.bearing (wps.getD i (0, 0)) (wps.getD (i + 1) (0, 0))))
    ∧ ((((formatWaypoints geo fp fw fh wps).map Prod.fst).getD (wps.length - 1)
          default).heading =
        (if geo.bearing (wps.getD (wps.length - 1) (0, 0)) (wps.getD (wps.length - 2) (0, 0))
            < 0 then
          geo.bearing (wps.getD (wps.length - 1) (0, 0)) (wps.getD (wps.length - 2) (0, 0))
            + 360
        else geo.bearing (wps.getD (wps.length - 1) (0, 0))
          (wps.getD (wps.length - 2) (0, 0))))
    ∧ (∀ w ∈ (formatWaypoints geo fp fw fh wps).map Prod.fst,
        0 ≤ w.heading ∧ w.heading < 360) := by
  refine ⟨?_, ?_, ?_⟩
  · intro i hi
    have hii : i < wps.length := by omega
    rw [List.getD_eq_getElem?_getD, formatWaypoints_fst_getElem? geo fp fw fh wps i hii]
    simp only [Option.getD_some, mkWaypointAndFootprint_heading]
    have hnext : nextFor wps i (wps.getD i (0, 0)) = wps.getD (i + 1) (0, 0) := by
      unfold nextFor
      have : wps[i + 1]? = some (wps.getD (i + 1) (0, 0)) := by
        rw [List.getD_eq_getElem?_getD, List.getElem?_eq_getElem hi]
        rfl
      rw [this]
    rw [hnext]
  · have hlast : wps.length - 1 < wps.length := by omega
    rw [List.getD_eq_getElem?_getD,
      formatWaypoints_fst_getElem? geo fp fw fh wps (wps.length - 1) hlast]
    simp only [Option.getD_some, mkWaypointAndFootprint_heading]
    have hnext : nextFor wps (wps.length - 1) (wps.getD (wps.length - 1) (0, 0)) =
        wps.getD (wps.length - 2) (0, 0) := by
      unfold nextFor
      have hnone : wps[wps.length - 1 + 1]? = none := by
        rw [List.getElem?_eq_none_iff]
        omega
      rw [hnone]
      have hne : wps.length - 1 ≠ 0 := by omega
      have hprev : wps[wps.length - 1 - 1]? = some (wps.getD (wps.length - 2) (0, 0)) := by
        have hlt : wps.length - 1 - 1 < wps.length := by omega
        rw [List.getD_eq_getElem?_getD, List.getElem?_eq_getElem hlt]
        have : wps.length - 1 - 1 = wps.length - 2 := by omega
        rw [List.getElem?_eq_getElem (by omega : wps.length - 2 < wps.length)]
        simp [this]
      rw [if_neg hne, hprev]
    rw [hnext]
  · intro w hw
    simp only [List.mem_map, formatWaypoints, List.mem_map] at hw
    obtain ⟨pr, ⟨p, hp, hpr⟩, hw⟩ := hw
    subst hpr
    subst hw
    rw [mkWaypointAndFootprint_heading]
    rcases hb p.2 (nextFor wps p.1 p.2) with ⟨hlo, hhi⟩
    by_cases hneg : geo.bearing p.2 (nextFor wps p.1 p.2) < 0
    · rw [if_pos hneg]
      constructor <;> linarith
    · rw [if_neg hneg]
      push_neg at hneg
      constructor <;> linarith

/-- **C4.**  With positive `sensorWidth`, `focalLength`, `imageWidth`,
`imageHeight` and `altitude`: if both overlaps lie in `[0, 100)` then both
derived spacings are positive and `generateFlightPlan` does not fail with the
`InvalidParameters` error; if either overlap is `≥ 100`, it fails with
exactly that error (before any waypoint is produced — the embedding returns
the error as the whole result). -/
theorem C4_overlap_guard (geo : Geo) (f : FlightParams) (c : CameraParams)
    (hsw : 0 < c.sensorWidth) (hfoc : 0 < c.focalLength) (hiw : 0 < c.imageWidth)
    (hih : 0 < c.imageHeight) (halt : 0 < f.altitude) :
    ((0 ≤ f.frontOverlap ∧ f.frontOverlap < 100 ∧ 0 ≤ f.sideOverlap ∧ f.sideOverlap < 100) →
      0 < distanceAlongTrackOf f c ∧ 0 < distanceSideTrackOf f c ∧
      generateFlightPlan geo f c ≠ Except.error "Overlap values must be less than 100%.")
    ∧ ((100 ≤ f.frontOverlap ∨ 100 ≤ f.sideOverlap) →
      generateFlightPlan geo f c = Except.error "Overlap values must be less than 100%.") := by
  have hgsd : 0 < gsdOf f c := by
    unfold gsdOf
    exact div_pos (mul_pos halt hsw) (mul_pos hfoc hiw)
  have hfw : 0 < footprintWidthOf f c := mul_pos hgsd hiw
  have hfh : 0 < footprintHeightOf f c := mul_pos hgsd hih
  constructor
  · rintro ⟨hfo0, hfo1, hso0, hso1⟩
    have hdat : 0 < distanceAlongTrackOf f c := by
      apply mul_pos hfh
      linarith
    have hdst : 0 < distanceSideTrackOf f c := by
      apply mul_pos hfw
      linarith
    refine ⟨hdat, hdst, ?_⟩
    unfold generateFlightPlan
    rw [if_neg (by push_neg; constructor <;> linarith)]
    dsimp only
    split
    · intro hcon
      have hstr := Except.error.inj hcon
      exact absurd hstr (by decide)
    · intro hcon
      exact Except.noConfusion hcon
  · intro hover
    have hguard : distanceSideTrackOf f c ≤ 0 ∨ distanceAlongTrackOf f c ≤ 0 := by
      rcases hover with hfo | hso
      · right
        unfold distanceAlongTrackOf
        have h0 : (1 - f.frontOverlap / 100) ≤ 0 := by linarith
        nlinarith
      · left
        unfold distanceSideTrackOf
        have h0 : (1 - f.sideOverlap / 100) ≤ 0 := by linarith
        nlinarith
    unfold generateFlightPlan
    rw [if_pos hguard]

lemma chunkBy_flatten_subset {α : Type} (ns : List Nat) (l : List α) :
    ∀ x ∈ (chunkBy ns l).flatten, x ∈ l := by
  induction ns generalizing l with
  | nil => simp [chunkBy]
  | cons n ns ih =>
    intro x hx
    simp only [chunkBy, List.flatten_cons, List.mem_append] at hx
    rcases hx with h | h
    · exact List.take_subset n l h
    · exact List.drop_subset n l (ih (l.drop n) x h)

lemma chunkBy_flatten {α : Type} (ns : List Nat) (l : List α) (h : ns.sum = l.length) :
    (chunkBy ns l).flatten = l := by
  induction ns generalizing l with
  | nil =>
    simp only [List.sum_nil] at h
    simp [chunkBy, List.eq_nil_of_length_eq_zero h.symm]
  | cons n ns ih =>
    simp only [List.sum_cons] at h
    simp only [chunkBy, List.flatten_cons]
    rw [ih (l.drop n) (by simp; omega)]
    exact List.take_append_drop n l

lemma chunkBy_map_length {α : Type} (ns : List Nat) (l : List α) (h : ns.sum ≤ l.length) :
    (chunkBy ns l).map List.length = ns := by
  induction ns generalizing l with
  | nil => simp [chunkBy]
  | cons n ns ih =>
    simp only [List.sum_cons] at h
    simp only [chunkBy, List.map_cons]
    rw [ih (l.drop n) (by simp; omega)]
    simp
    omega

lemma mkWaypointAndFootprint_snd (geo : Geo) (fp : FlightParams) (fw fh : ℚ)
    (finalWps : List Pt) (i : Nat) (wp : Pt) :
    ∃ tl tr br bl : Pt, (mkWaypointAndFootprint geo fp fw fh finalWps i wp).2 =
      [tl, tr, br, bl, tl] := by
  refine ⟨_, _, _, _, rfl⟩

lemma generateFlightPlan_ok_shape (geo : Geo) (f : FlightParams) (c : CameraParams)
    (wl : List (List Waypoint)) (fps : List Footprint)
    (h : generateFlightPlan geo f c = Except.ok (wl, fps)) :
    wl = chunkBy
        ((sweepWaypoints geo (distanceAlongTrackOf f c)
          (sweepFlightLines geo (geo.lengthToDegrees (distanceSideTrackOf f c)))).map
          List.length)
        ((formatWaypoints geo f (footprintWidthOf f c) (footprintHeightOf f c)
          (((sweepWaypoints geo (distanceAlongTrackOf f c)
            (sweepFlightLines geo (geo.lengthToDegrees (distanceSideTrackOf f c)))).flatten).map
            geo.rotateBack)).map Prod.fst)
    ∧ fps = (formatWaypoints geo f (footprintWidthOf f c) (footprintHeightOf f c)
          (((sweepWaypoints geo (distanceAlongTrackOf f c)
            (sweepFlightLines geo (geo.lengthToDegrees (distanceSideTrackOf f c)))).flatten).map
            geo.rotateBack)).map Prod.snd := by
  unfold generateFlightPlan at h
  split at h
  · exact Except.noConfusion h
  · dsimp only at h
    split at h
    · exact Except.noConfusion h
    · obtain ⟨h1, h2⟩ := Prod.mk.inj (Except.ok.inj h)
      exact ⟨h1.symm, h2.symm⟩

lemma formatWaypoints_length (geo : Geo) (fp : FlightParams) (fw fh : ℚ) (wps : List Pt) :
    (formatWaypoints geo fp fw fh wps).length = wps.length := by
  simp [formatWaypoints]

/-- `wl.flatten` of a successful plan is exactly the flat formatted list. -/
lemma generateFlightPlan_ok_flatten (geo : Geo) (f : FlightParams) (c : CameraParams)
    (wl : List (List Waypoint)) (fps : List Footprint)
    (h : generateFlightPlan geo f c = Except.ok (wl, fps)) :
    wl.flatten = (formatWaypoints geo f (footprintWidthOf f c) (footprintHeightOf f c)
        (((sweepWaypoints geo (distanceAlongTrackOf f c)
          (sweepFlightLines geo (geo.lengthToDegrees (distanceSideTrackOf f c)))).flatten).map
          geo.rotateBack)).map Prod.fst := by
  obtain ⟨h1, _⟩ := generateFlightPlan_ok_shape geo f c wl fps h
  rw [h1]
  apply chunkBy_flatten
  rw [List.length_map, formatWaypoints_length, List.length_map, List.length_flatten]

/-- **C10.**  Every waypoint of a freshly generated plan carries
`altitude = flightParams.altitude`, `gimbalPitch = flightParams.gimbalPitch`
and `speed = flightParams.speed` — these fields are identical across all
waypoints of the plan (only `lat`, `lng` and `heading` are computed
per-waypoint). -/
theorem C10_constant_fields (geo : Geo) (f : FlightParams) (c : CameraParams)
    (wl : List (List Waypoint)) (fps : List Footprint)
    (h : generateFlightPlan geo f c = Except.ok (wl, fps)) :
    ∀ w ∈ wl.flatten,
      w.altitude = f.altitude ∧ w.gimbalPitch = f.gimbalPitch ∧ w.speed = f.speed := by
  intro w hw
  rw [generateFlightPlan_ok_flatten geo f c wl fps h] at hw
  simp only [List.mem_map, formatWaypoints] at hw
  obtain ⟨pr, ⟨p, _, hpr⟩, hw⟩ := hw
  subst hpr
  subst hw
  exact ⟨rfl, rfl, rfl⟩

lemma collectFps_eq (ofps : List Footprint) (off : Nat) :
    ∀ n : Nat, off + n ≤ ofps.length →
      collectFps ofps off n = (ofps.drop off).take n := by
  intro n
  induction n with
  | zero => intro _; simp [collectFps]
  | succ n ih =>
    intro h
    rw [collectFps, ih (by omega)]
    rw [List.take_succ]
    congr 1
    rw [List.getElem?_drop]

lemma keepLine_parts {α β : Type} (ks ke : Nat) (l : List α) (m : List β)
    (hlen : l.length = m.length) :
    List.Sublist ((keepLine ks ke l).zip (keepLine ks ke m)) (l.zip m)
    ∧ (keepLine ks ke l).length = (keepLine ks ke m).length := by
  unfold keepLine
  rw [hlen]
  by_cases hc : m.length ≤ ks + ke
  · rw [if_pos hc, if_pos hc]
    exact ⟨List.Sublist.refl _, hlen⟩
  · rw [if_neg hc, if_neg hc]
    push_neg at hc
    constructor
    · have hzip : (l.take ks ++ l.drop (m.length - ke)).zip
          (m.take ks ++ m.drop (m.length - ke)) =
          (l.zip m).take ks ++ (l.zip m).drop (m.length - ke) := by
        rw [List.zip_append (by rw [List.length_take, List.length_take, hlen])]
        congr 1
        · simp [List.zip, List.take_zipWith]
        · simp [List.zip, List.drop_zipWith]
      rw [hzip]
      have hks : ks ≤ m.length - ke := by omega
      have e1 : (l.zip m).take ks = ((l.zip m).take (m.length - ke)).take ks := by
        rw [List.take_take, Nat.min_eq_left hks]
      rw [e1]
      have hsub : List.Sublist
          (((l.zip m).take (m.length - ke)).take ks ++ (l.zip m).drop (m.length - ke))
          ((l.zip m).take (m.length - ke) ++ (l.zip m).drop (m.length - ke)) :=
        List.Sublist.append (List.take_sublist _ _) (List.Sublist.refl _)
      rw [List.take_append_drop] at hsub
      exact hsub
    · simp only [List.length_append, List.length_take, List.length_drop, hlen]

lemma zip_flatten_keep (ks ke : Nat) :
    ∀ (ls : List (List Waypoint)) (cs : List (List Footprint)),
      ls.map List.length = cs.map List.length →
      List.Sublist
        (((ls.map (keepLine ks ke)).flatten).zip ((cs.map (keepLine ks ke)).flatten))
        ((ls.flatten).zip (cs.flatten))
      ∧ ((ls.map (keepLine ks ke)).flatten).length =
          ((cs.map (keepLine ks ke)).flatten).length := by
  intro ls
  induction ls with
  | nil =>
    intro cs hcs
    cases cs with
    | nil => simp
    | cons c cs => simp at hcs
  | cons line rest ih =>
    intro cs hcs
    cases cs with
    | nil => simp at hcs
    | cons c cs =>
      simp only [List.map_cons, List.cons.injEq] at hcs
      obtain ⟨hlen, htail⟩ := hcs
      obtain ⟨hsub1, hlen1⟩ := keepLine_parts ks ke line c hlen
      obtain ⟨hsub2, hlen2⟩ := ih cs htail
      simp only [List.map_cons, List.flatten_cons]
      constructor
      · rw [List.zip_append hlen1, List.zip_append hlen]
        exact List.Sublist.append hsub1 hsub2
      · simp only [List.length_append, hlen1, hlen2]

lemma filterLoop_spec (ks ke : Nat) (ofps : List Footprint) :
    ∀ (lines : List (List Waypoint)) (off : Nat),
      off + lines.flatten.length ≤ ofps.length →
      filterLoop ks ke ofps lines off =
        ((lines.map (keepLine ks ke)).flatten,
         ((chunkBy (lines.map List.length)
             ((ofps.drop off).take lines.flatten.length)).map (keepLine ks ke)).flatten) := by
  intro lines
  induction lines with
  | nil => intro off _; simp [filterLoop, chunkBy]
  | cons line rest ih =>
    intro off h
    have hflat : (line :: rest).flatten.length = line.length + rest.flatten.length := by
      simp
    rw [hflat] at h
    have hrec := ih (off + line.length) (by omega)
    have hX : ((ofps.drop off).take ((line :: rest).flatten.length)).take line.length
        = (ofps.drop off).take line.length := by
      rw [hflat, List.take_take, Nat.min_eq_left (by omega)]
    have hY : ((ofps.drop off).take ((line :: rest).flatten.length)).drop line.length
        = (ofps.drop (off + line.length)).take rest.flatten.length := by
      rw [hflat, List.drop_take, List.drop_drop]
      rw [show line.length + rest.flatten.length - line.length = rest.flatten.length by omega]
    have hchunk : chunkBy ((line :: rest).map List.length)
        ((ofps.drop off).take ((line :: rest).flatten.length))
        = ((ofps.drop off).take line.length)
          :: chunkBy (rest.map List.length)
              ((ofps.drop (off + line.length)).take rest.flatten.length) := by
      simp only [List.map_cons, chunkBy]
      rw [hX, hY]
    simp only [filterLoop]
    rw [hrec, hchunk]
    simp only [List.map_cons, List.flatten_cons]
    by_cases hc : line.length ≤ ks + ke
    · rw [if_pos hc]
      have hk : keepLine ks ke line = line := by rw [keepLine, if_pos hc]
      have hkC : keepLine ks ke ((ofps.drop off).take line.length)
          = (ofps.drop off).take line.length := by
        rw [keepLine, if_pos]
        rw [List.length_take]
        exact le_trans (Nat.min_le_left _ _) hc
      rw [hk, hkC, collectFps_eq ofps off line.length (by omega)]
    · rw [if_neg hc]
      push_neg at hc
      have hClen : ((ofps.drop off).take line.length).length = line.length := by
        rw [List.length_take, List.length_drop]
        omega
      have hk : keepLine ks ke line
          = line.take ks ++ line.drop (line.length - ke) := by
        rw [keepLine, if_neg (by omega)]
      have htk : ((ofps.drop off).take line.length).take ks
          = collectFps ofps off ks := by
        rw [List.take_take, Nat.min_eq_left (by omega),
          collectFps_eq ofps off ks (by omega)]
      have hdr : ((ofps.drop off).take line.length).drop (line.length - ke)
          = collectFps ofps (off + (line.length - ke)) ke := by
        rw [List.drop_take, List.drop_drop,
          collectFps_eq ofps (off + (line.length - ke)) ke (by omega)]
        rw [show line.length - (line.length - ke) = ke by omega]
      have hkC : keepLine ks ke ((ofps.drop off).take line.length)
          = collectFps ofps off ks ++ collectFps ofps (off + (line.length - ke)) ke := by
        rw [keepLine, if_neg (by rw [hClen]; omega), hClen, htk, hdr]
      rw [hk, hkC]

/-- **C5.**  When filtering is disabled the active view is the canonical plan
flattened with the canonical footprints unchanged; when enabled, each line of
length `L` contributes all its waypoints (and the footprints at the same flat
positions) if `L ≤ keepStart + keepEnd`, and otherwise exactly its first
`keepStart` followed by its last `keepEnd` waypoints together with the
footprints at the same flat positions, order preserved (the footprint side is
the same per-line selection applied to the footprint list chunked by the line
lengths).  The embedding is a pure function of the canonical data, which it
never modifies. -/
theorem C5_filter (fpar : FilterParams) (lines : List (List Waypoint))
    (fps : List Footprint) (halign : fps.length = lines.flatten.length)
    (hne : lines ≠ []) :
    (fpar.enabled = false →
      filterEffect fpar lines (some fps) = (lines.flatten, some fps))
    ∧ (fpar.enabled = true →
      filterEffect fpar lines (some fps) =
        ((lines.map (keepLine fpar.keepStart fpar.keepEnd)).flatten,
         some (((chunkBy (lines.map List.length) fps).map
           (keepLine fpar.keepStart fpar.keepEnd)).flatten)))
    ∧ (∀ line : List Waypoint, line.length ≤ fpar.keepStart + fpar.keepEnd →
        keepLine fpar.keepStart fpar.keepEnd line = line)
    ∧ (∀ line : List Waypoint, fpar.keepStart + fpar.keepEnd < line.length →
        keepLine fpar.keepStart fpar.keepEnd line =
          line.take fpar.keepStart ++ line.drop (line.length - fpar.keepEnd)
        ∧ (keepLine fpar.keepStart fpar.keepEnd line).length =
            fpar.keepStart + fpar.keepEnd) := by
  have hlen0 : lines.length ≠ 0 := fun hl => hne (List.eq_nil_of_length_eq_zero hl)
  refine ⟨?_, ?_, ?_, ?_⟩
  · intro hdis
    unfold filterEffect
    dsimp only
    rw [if_neg hlen0, if_pos hdis]
  · intro hen
    unfold filterEffect
    dsimp only
    rw [if_neg hlen0, if_neg (by simp [hen])]
    rw [filterLoop_spec fpar.keepStart fpar.keepEnd fps lines 0 (by omega)]
    rw [List.drop_zero, ← halign, List.take_length]
  · intro line hle
    rw [keepLine, if_pos hle]
  · intro line hgt
    refine ⟨by rw [keepLine, if_neg (by omega)], ?_⟩
    rw [keepLine, if_neg (by omega)]
    simp only [List.length_append, List.length_take, List.length_drop]
    omega

/-- **C9.**  A successful `generateFlightPlan` returns exactly one 4-vertex
closed footprint ring (5 coordinates, first = last) per flattened waypoint,
the footprint at flat position `i` being created atomically with waypoint `i`
(both are projections of the same formatted pair list); and the waypoint
filter preserves the pairing: on any aligned canonical plan the active view
has equally many waypoints and footprints, and the active waypoint/footprint
pairs are an order-preserving selection of the canonical flat pairs. -/
theorem C9_pairing (geo : Geo) (f : FlightParams) (c : CameraParams)
    (wl : List (List Waypoint)) (fps : List Footprint)
    (h : generateFlightPlan geo f c = Except.ok (wl, fps)) :
    fps.length = wl.flatten.length
    ∧ (∀ ring ∈ fps, ring.length = 5 ∧ ring.head? = ring.getLast?)
    ∧ (∃ finalWps : List Pt,
        wl.flatten = (formatWaypoints geo f (footprintWidthOf f c)
          (footprintHeightOf f c) finalWps).map Prod.fst
        ∧ fps = (formatWaypoints geo f (footprintWidthOf f c)
          (footprintHeightOf f c) finalWps).map Prod.snd)
    ∧ (∀ (fpar : FilterParams) (lines : List (List Waypoint)) (ofps : List Footprint),
        ofps.length = lines.flatten.length →
        ((filterEffect fpar lines (some ofps)).2.getD []).length =
          (filterEffect fpar lines (some ofps)).1.length
        ∧ List.Sublist
            ((filterEffect fpar lines (some ofps)).1.zip
              ((filterEffect fpar lines (some ofps)).2.getD []))
            ((lines.flatten).zip ofps)) := by
  obtain ⟨hwl, hfps⟩ := generateFlightPlan_ok_shape geo f c wl fps h
  have hflatten := generateFlightPlan_ok_flatten geo f c wl fps h
  refine ⟨?_, ?_, ?_, ?_⟩
  · rw [hflatten, hfps]
    simp
  · intro ring hring
    rw [hfps] at hring
    simp only [List.mem_map, formatWaypoints] at hring
    obtain ⟨pr, ⟨p, _, hpr⟩, hringeq⟩ := hring
    subst hpr
    obtain ⟨tl, tr, br, bl, hmk⟩ := mkWaypointAndFootprint_snd geo f
      (footprintWidthOf f c) (footprintHeightOf f c) _ p.1 p.2
    rw [hmk] at hringeq
    subst hringeq
    exact ⟨rfl, rfl⟩
  · exact ⟨_, hflatten, hfps⟩
  · intro fpar lines ofps halign
    by_cases hl0 : lines.length = 0
    · unfold filterEffect
      dsimp only
      rw [if_pos hl0]
      simp
    · by_cases hen : fpar.enabled
      · unfold filterEffect
        dsimp only
        rw [if_neg hl0, if_neg (by simp [hen])]
        rw [filterLoop_spec fpar.keepStart fpar.keepEnd ofps lines 0 (by omega)]
        rw [List.drop_zero, ← halign, List.take_length]
        dsimp only [Option.getD_some]
        have hchunklen : (chunkBy (lines.map List.length) ofps).map List.length
            = lines.map List.length := by
          apply chunkBy_map_length
          rw [halign, List.length_flatten]
        have hchunkflat : (chunkBy (lines.map List.length) ofps).flatten = ofps := by
          apply chunkBy_flatten
          rw [halign, List.length_flatten]
        obtain ⟨hsub, hlen⟩ := zip_flatten_keep fpar.keepStart fpar.keepEnd lines
          (chunkBy (lines.map List.length) ofps) hchunklen.symm
        rw [hchunkflat] at hsub
        exact ⟨hlen.symm, hsub⟩
      · unfold filterEffect
        dsimp only
        rw [if_neg hl0, if_pos (by simp [hen])]
        dsimp only [Option.getD_some]
        exact ⟨halign.symm ▸ rfl, List.Sublist.refl _⟩

lemma mergeLine_length (altitude : ℚ) (els : Elevations) :
    ∀ (l : List Waypoint) (idx : Nat), (mergeLine altitude els l idx).length = l.length := by
  intro l
  induction l with
  | nil => intro idx; rfl
  | cons wp rest ih =>
    intro idx
    simp only [mergeLine, List.length_cons, ih]

lemma mergeLine_eq (altitude : ℚ) (els : Elevations) :
    ∀ (l : List Waypoint) (idx : Nat), idx + l.length ≤ els.length →
      mergeLine altitude els l idx =
        List.zipWith (mergeWp altitude) l ((els.drop idx).take l.length) := by
  intro l
  induction l with
  | nil => intro idx _; simp [mergeLine]
  | cons wp rest ih =>
    intro idx h
    simp only [List.length_cons] at h
    have hidx : idx < els.length := by omega
    have hdrop : els.drop idx = els[idx] :: els.drop (idx + 1) :=
      List.drop_eq_getElem_cons hidx
    rw [mergeLine, ih (idx + 1) (by omega), hdrop, List.length_cons,
      List.take_succ_cons, List.zipWith_cons_cons]
    congr 1
    rw [List.getD_eq_getElem?_getD, List.getElem?_eq_getElem hidx]
    rfl

lemma mergeLinesFrom_map_length (altitude : ℚ) (els : Elevations) :
    ∀ (lines : List (List Waypoint)) (idx : Nat),
      (mergeLinesFrom altitude els lines idx).map List.length = lines.map List.length := by
  intro lines
  induction lines with
  | nil => intro idx; rfl
  | cons line rest ih =>
    intro idx
    simp only [mergeLinesFrom, List.map_cons, mergeLine_length, ih]

lemma mergeLinesFrom_flatten (altitude : ℚ) (els : Elevations) :
    ∀ (lines : List (List Waypoint)) (idx : Nat), idx + lines.flatten.length ≤ els.length →
      (mergeLinesFrom altitude els lines idx).flatten =
        List.zipWith (mergeWp altitude) lines.flatten (els.drop idx) := by
  intro lines
  induction lines with
  | nil => intro idx _; simp [mergeLinesFrom]
  | cons line rest ih =>
    intro idx h
    simp only [List.flatten_cons, List.length_append] at h
    rw [mergeLinesFrom, List.flatten_cons, mergeLine_eq altitude els line idx (by omega),
      ih (idx + line.length) (by omega), List.flatten_cons]
    conv_rhs => rw [← List.take_append_drop line.length (els.drop idx)]
    rw [List.zipWith_append _ _ _ _ _
      (by rw [List.length_take, List.length_drop]; omega)]
    congr 1
    rw [List.drop_drop]

/-- **C6.**  The terrain merge pairs the canonical flattened waypoints with
the elevation samples by position (the running index makes the nested map a
positional `zipWith`): a numeric sample `e` replaces the altitude by
`e + flightParams.altitude` rounded to 2 decimals and changes nothing else,
an unknown (`null`) sample leaves the waypoint unchanged, and the line
structure of the canonical plan is preserved.  The merge is total — a mix of
corrected and uncorrected waypoints is an ordinary outcome, not an error. -/
theorem C6_elevation_merge (altitude : ℚ) (lines : List (List Waypoint))
    (els : Elevations) (halign : els.length = lines.flatten.length) :
    ((mergeAltitudes altitude lines els).map List.length = lines.map List.length)
    ∧ (mergeAltitudes altitude lines els).flatten =
        List.zipWith (mergeWp altitude) lines.flatten els
    ∧ (∀ (wp : Waypoint) (e : ℚ), mergeWp altitude wp (some e) =
        { wp with altitude := roundTo2 (e + altitude) })
    ∧ (∀ wp : Waypoint, mergeWp altitude wp none = wp) := by
  refine ⟨mergeLinesFrom_map_length altitude els lines 0, ?_, fun wp e => rfl, fun wp => rfl⟩
  unfold mergeAltitudes
  rw [mergeLinesFrom_flatten altitude els lines 0 (by omega), List.drop_zero]

lemma writeBatch_length :
    ∀ (l acc : List (Option ℚ)) (i : Nat), (writeBatch acc i l).length = acc.length := by
  intro l
  induction l with
  | nil => intro acc i; rfl
  | cons e es ih =>
    intro acc i
    rw [writeBatch, ih, List.length_set]

lemma writeBatch_getElem? :
    ∀ (l acc : List (Option ℚ)) (i j : Nat), i + l.length ≤ acc.length →
      (writeBatch acc i l)[j]? =
        if i ≤ j ∧ j < i + l.length then l[j - i]? else acc[j]? := by
  intro l
  induction l with
  | nil =>
    intro acc i j _
    rw [writeBatch, if_neg (by simp only [List.length_nil]; omega)]
  | cons e es ih =>
    intro acc i j h
    simp only [List.length_cons] at h
    rw [writeBatch, ih (acc.set i e) (i + 1) j (by rw [List.length_set]; omega)]
    by_cases hj : i ≤ j ∧ j < i + (e :: es).length
    · rw [if_pos hj]
      simp only [List.length_cons] at hj
      by_cases hji : j = i
      · subst hji
        rw [if_neg (by omega), List.getElem?_set_self (by omega)]
        simp
      · rw [if_pos ⟨by omega, by omega⟩]
        have hsub : j - i = (j - (i + 1)) + 1 := by omega
        rw [hsub, List.getElem?_cons_succ]
    · rw [if_neg hj]
      simp only [List.length_cons] at hj
      rw [if_neg (by omega), List.getElem?_set_ne (by omega)]

lemma elevStep_length (fetchBatch : Nat → FetchResult) (waypoints : List Waypoint)
    (i : Nat) (acc : List (Option ℚ)) :
    (elevStep fetchBatch waypoints i acc).length = acc.length := by
  unfold elevStep
  cases fetchBatch i with
  | ok elevs =>
    dsimp only
    split
    · rfl
    · rw [writeBatch_length]
  | notOk => rfl
  | malformed => rfl
  | thrown => rfl

lemma elevStep_getD_out (fetchBatch : Nat → FetchResult) (waypoints : List Waypoint)
    (i : Nat) (acc : List (Option ℚ)) (hacc : acc.length = waypoints.length)
    (hi : i < waypoints.length) (j : Nat)
    (hout : j < i ∨ i + BATCH_SIZE ≤ j) :
    (elevStep fetchBatch waypoints i acc).getD j none = acc.getD j none := by
  unfold elevStep
  cases fetchBatch i with
  | ok elevs =>
    dsimp only
    split
    · rfl
    · rename_i hsz
      push_neg at hsz
      have hblen : ((waypoints.drop i).take BATCH_SIZE).length =
          min BATCH_SIZE (waypoints.length - i) := by
        rw [List.length_take, List.length_drop]
      rw [List.getD_eq_getElem?_getD, List.getD_eq_getElem?_getD,
        writeBatch_getElem? elevs acc i j
          (by rw [hacc, hsz, hblen]; simp only [BATCH_SIZE]; omega)]
      rw [if_neg (by rw [hsz, hblen]; simp only [BATCH_SIZE] at hout ⊢; omega)]
  | notOk => rfl
  | malformed => rfl
  | thrown => rfl

lemma elevStep_getD_mid (fetchBatch : Nat → FetchResult) (waypoints : List Waypoint)
    (i : Nat) (acc : List (Option ℚ)) (hacc : acc.length = waypoints.length)
    (hmod : i % BATCH_SIZE = 0)
    (hnone : ∀ j', i ≤ j' → acc.getD j' none = none)
    (j : Nat) (hij : i ≤ j) (hjB : j < i + BATCH_SIZE) (hjlen : j < waypoints.length) :
    (elevStep fetchBatch waypoints i acc).getD j none = specElev fetchBatch waypoints j := by
  have hq : BATCH_SIZE * (j / BATCH_SIZE) = i := by
    simp only [BATCH_SIZE] at *
    omega
  have hblen : ((waypoints.drop i).take BATCH_SIZE).length =
      min BATCH_SIZE (waypoints.length - i) := by
    rw [List.length_take, List.length_drop]
  unfold elevStep specElev
  rw [hq]
  cases fetchBatch i with
  | ok elevs =>
    dsimp only
    by_cases hsz : elevs.length = min BATCH_SIZE (waypoints.length - i)
    · rw [if_neg (by rw [hblen]; exact fun hc => hc hsz), if_pos hsz]
      rw [List.getD_eq_getElem?_getD,
        writeBatch_getElem? elevs acc i j
          (by rw [hacc, hsz]; simp only [BATCH_SIZE]; omega)]
      rw [if_pos ⟨hij, by rw [hsz]; simp only [BATCH_SIZE] at *; omega⟩]
      rw [List.getD_eq_getElem?_getD]
      have hidx : j - i = j % BATCH_SIZE := by
        simp only [BATCH_SIZE] at *
        omega
      rw [hidx]
    · rw [if_pos (by rw [hblen]; exact fun hc => hsz hc), if_neg hsz]
      exact hnone j hij
  | notOk =>
    dsimp only
    exact hnone j hij
  | malformed =>
    dsimp only
    exact hnone j hij
  | thrown =>
    dsimp only
    exact hnone j hij

lemma elevLoop_length (fetchBatch : Nat → FetchResult) (waypoints : List Waypoint) :
    ∀ (fuel i : Nat) (acc : List (Option ℚ)), waypoints.length - i ≤ fuel →
      (elevLoop fetchBatch waypoints i acc).length = acc.length := by
  intro fuel
  induction fuel with
  | zero =>
    intro i acc hf
    rw [elevLoop, dif_neg (by omega)]
  | succ fuel ih =>
    intro i acc hf
    by_cases hi : i < waypoints.length
    · rw [elevLoop, dif_pos hi]
      rw [ih (i + BATCH_SIZE) _ (by simp only [BATCH_SIZE] at *; omega)]
      exact elevStep_length fetchBatch waypoints i acc
    · rw [elevLoop, dif_neg hi]

lemma elevLoop_spec (fetchBatch : Nat → FetchResult) (waypoints : List Waypoint) :
    ∀ (fuel i : Nat) (acc : List (Option ℚ)), waypoints.length - i ≤ fuel →
      acc.length = waypoints.length → i % BATCH_SIZE = 0 →
      (∀ j', i ≤ j' → acc.getD j' none = none) →
      ∀ j, j < waypoints.length →
        (elevLoop fetchBatch waypoints i acc).getD j none =
          if j < i then acc.getD j none else specElev fetchBatch waypoints j := by
  intro fuel
  induction fuel with
  | zero =>
    intro i acc hf hlen hmod hnone j hj
    rw [elevLoop, dif_neg (by omega), if_pos (by omega)]
  | succ fuel ih =>
    intro i acc hf hlen hmod hnone j hj
    by_cases hi : i < waypoints.length
    · rw [elevLoop, dif_pos hi]
      have hlen2 : (elevStep fetchBatch waypoints i acc).length = waypoints.length := by
        rw [elevStep_length, hlen]
      have hmod2 : (i + BATCH_SIZE) % BATCH_SIZE = 0 := by
        simp only [BATCH_SIZE] at *
        omega
      have hnone2 : ∀ j', i + BATCH_SIZE ≤ j' →
          (elevStep fetchBatch waypoints i acc).getD j' none = none := by
        intro j' hj'
        rw [elevStep_getD_out fetchBatch waypoints i acc hlen hi j' (Or.inr hj')]
        exact hnone j' (by omega)
      rw [ih (i + BATCH_SIZE) _ (by simp only [BATCH_SIZE] at *; omega) hlen2 hmod2
        hnone2 j hj]
      by_cases hj1 : j < i
      · rw [if_pos (by simp only [BATCH_SIZE] at *; omega), if_pos hj1]
        exact elevStep_getD_out fetchBatch waypoints i acc hlen hi j (Or.inl hj1)
      · by_cases hj2 : j < i + BATCH_SIZE
        · rw [if_pos hj2, if_neg hj1]
          exact elevStep_getD_mid fetchBatch waypoints i acc hlen hmod hnone j
            (by omega) hj2 hj
        · rw [if_neg hj2, if_neg hj1]
    · rw [elevLoop, dif_neg hi, if_pos (by omega)]

lemma getD_replicate_none (n j : Nat) :
    (List.replicate n (none : Option ℚ)).getD j none = none := by
  rw [List.getD_eq_getElem?_getD, List.getElem?_replicate]
  split <;> rfl

/-- **C7.**  `getElevations` returns one entry per input waypoint in input
order; entry `j` is determined solely by the outcome of the batch containing
position `j` (batches of `BATCH_SIZE = 50`, issued sequentially): the
`j % 50`-th payload value when that batch's request returned OK with a
payload of exactly the batch's size, and unknown (`null`) when that batch
failed in any way (non-OK response, malformed or mismatched payload, thrown
network error) — so one batch's failure never affects other batches and never
aborts the function (which is total); the empty input yields `[]`. -/
theorem C7_getElevations (fetchBatch : Nat → FetchResult) (waypoints : List Waypoint) :
    (getElevations fetchBatch waypoints).length = waypoints.length
    ∧ (waypoints = [] → getElevations fetchBatch waypoints = [])
    ∧ (∀ j : Nat, j < waypoints.length →
        (getElevations fetchBatch waypoints).getD j none =
          specElev fetchBatch waypoints j) := by
  refine ⟨?_, ?_, ?_⟩
  · unfold getElevations
    split
    · rename_i h
      rw [h]
      rfl
    · rw [elevLoop_length fetchBatch waypoints (waypoints.length - 0) 0 _ (by omega)]
      rw [List.length_replicate]
  · intro h
    subst h
    rfl
  · intro j hj
    unfold getElevations
    rw [if_neg (by omega)]
    have := elevLoop_spec fetchBatch waypoints (waypoints.length - 0) 0
      (List.replicate waypoints.length none) (by omega) (by rw [List.length_replicate])
      (by simp [BATCH_SIZE]) (fun j' _ => getD_replicate_none waypoints.length j') j hj
    rw [this, if_neg (by omega)]

lemma pathLength_eq_zip_sum (dist : Pt → Pt → ℚ) :
    ∀ wps : List Waypoint, pathLength dist wps =
      ((wps.zip wps.tail).map (fun pq => dist (toPt pq.1) (toPt pq.2))).sum := by
  intro wps
  induction wps using pathLength.induct dist with
  | case1 a b rest ih =>
    simp only [pathLength, ih, List.tail_cons, List.zip_cons_cons, List.map_cons,
      List.sum_cons]
  | case2 t h =>
    cases t with
    | nil => simp [pathLength]
    | cons a t' =>
      cases t' with
      | nil => simp [pathLength]
      | cons b rest => exact (h a b rest rfl).elim

lemma pathLength_nonneg (dist : Pt → Pt → ℚ) (hdist : ∀ p q : Pt, 0 ≤ dist p q) :
    ∀ wps : List Waypoint, 0 ≤ pathLength dist wps := by
  intro wps
  induction wps using pathLength.induct dist with
  | case1 a b rest ih =>
    have := hdist (toPt a) (toPt b)
    simp only [pathLength]
    linarith
  | case2 t h =>
    cases t with
    | nil => simp [pathLength]
    | cons a t' =>
      cases t' with
      | nil => simp [pathLength]
      | cons b rest => exact (h a b rest rfl).elim

/-- **C8.**  The statistics effect yields no stats exactly when the active
waypoint list is empty or there are no canonical lines; otherwise the total
distance is the sum of the great-circle distances between consecutive active
waypoints (the loop equals the zip-with-tail sum — last conjunct), rendered
in kilometers rounded to 2 decimals; the flight time is
`totalDistanceMeters / speed` split into floored minutes and seconds
(`MM:SS`); the photo count is the active waypoint count; and the data volume
is `photoCount * imageWidth * imageHeight / 1e9` rounded to 2 decimals. -/
theorem C8_stats (dist : Pt → Pt → ℚ) (waypoints : List Waypoint)
    (originalWaypoints : List (List Waypoint)) (speed : ℚ)
    (cameraParams : CameraParams)
    (hspeed : 0 < speed) (hdist : ∀ p q : Pt, 0 ≤ dist p q) :
    (computeStats dist waypoints originalWaypoints speed cameraParams = none ↔
      waypoints = [] ∨ originalWaypoints = [])
    ∧ (∀ s : Stats,
        computeStats dist waypoints originalWaypoints speed cameraParams = some s →
        s.totalDistance = roundTo2 (pathLength dist waypoints / 1000)
        ∧ s.flightMinutes = ⌊pathLength dist waypoints / speed / 60⌋
        ∧ s.flightSeconds = ⌊pathLength dist waypoints / speed -
            60 * (⌊pathLength dist waypoints / speed / 60⌋ : ℚ)⌋
        ∧ s.photoCount = waypoints.length
        ∧ s.dataVolume = roundTo2 ((waypoints.length : ℚ) * cameraParams.imageWidth *
            cameraParams.imageHeight / 1000000000)
        ∧ s.totalWaypoints = waypoints.length
        ∧ s.flightLines = originalWaypoints.length)
    ∧ pathLength dist waypoints =
        ((waypoints.zip waypoints.tail).map (fun pq => dist (toPt pq.1) (toPt pq.2))).sum := by
  refine ⟨?_, ?_, pathLength_eq_zip_sum dist waypoints⟩
  · unfold computeStats
    split
    · rename_i hcond
      simp only [true_iff]
      rcases hcond with h | h
      · exact Or.inl (List.eq_nil_of_length_eq_zero h)
      · exact Or.inr (List.eq_nil_of_length_eq_zero h)
    · rename_i hcond
      push_neg at hcond
      constructor
      · intro hcon
        exact Option.noConfusion hcon
      · intro hcon
        rcases hcon with h | h <;> subst h <;> simp at hcond
  · intro s hs
    unfold computeStats at hs
    split at hs
    · exact Option.noConfusion hs
    · have hT : 0 ≤ pathLength dist waypoints / speed :=
        div_nonneg (pathLength_nonneg dist hdist waypoints) hspeed.le
      have htr : ratTrunc (pathLength dist waypoints / speed / 60) =
          ⌊pathLength dist waypoints / speed / 60⌋ := by
        unfold ratTrunc
        rw [if_pos (div_nonneg hT (by norm_num))]
      have hsec : jsFmod (pathLength dist waypoints / speed) 60 =
          pathLength dist waypoints / speed -
            60 * (⌊pathLength dist waypoints / speed / 60⌋ : ℚ) := by
        unfold jsFmod
        rw [htr]
      have hrec := Option.some.inj hs
      subst hrec
      dsimp only
      rw [hsec]
      exact ⟨rfl, rfl, rfl, rfl, rfl, rfl, rfl⟩

lemma geoOk_spacings : distanceSideTrackOf fpOk camOk = 1 ∧ distanceAlongTrackOf fpOk camOk = 5 := by
  constructor <;>
    norm_num [distanceSideTrackOf, distanceAlongTrackOf, footprintWidthOf,
      footprintHeightOf, gsdOf, fpOk, camOk]

lemma climbList_0_0_1 : climbList (0 : ℚ) 0 1 = [0] := by
  rw [climbList, dif_pos (by norm_num), climbList, dif_neg (by norm_num)]

lemma climbList_0_3_5 : climbList (0 : ℚ) 3 5 = [0] := by
  rw [climbList, dif_pos (by norm_num), climbList, dif_neg (by norm_num)]

lemma geoOk_plan_eval : generateFlightPlan geoOk fpOk camOk = Except.ok (wlinesOk, fpsOk) := by
  obtain ⟨hdst, hdat⟩ := geoOk_spacings
  unfold generateFlightPlan
  rw [hdst, hdat]
  norm_num [geoOk, sweepFlightLines, climbList_0_0_1, rowSegments, sortByX,
    List.insertionSort, List.orderedInsert, ptLeX, pairUp, sweepWaypoints,
    lineWaypoints, climbList_0_3_5, formatWaypoints, mkWaypointAndFootprint, nextFor,
    chunkBy, wlinesOk, fpsOk, List.enum, fpOk]

/-- Witness instantiating `C1_coverage_path` at a concrete positive step. -/
theorem C1_coverage_path_witness :
    (0 : ℚ) < 1 ∧
    ((sweepFlightLines trivGeo 1
      = (List.range (climbCount trivGeo.minY trivGeo.maxY 1)).flatMap
          (fun k : ℕ => pairUp (sortByX (trivGeo.inter (trivGeo.minY + (k : ℚ) * 1)))))
    ∧ (∀ k : ℕ, (k < climbCount trivGeo.minY trivGeo.maxY 1 ↔
        trivGeo.minY + (k : ℚ) * 1 ≤ trivGeo.maxY))
    ∧ (∀ l : List Pt, (sortByX l).Perm l ∧ (sortByX l).Sorted ptLeX)
    ∧ (∀ l : List Pt, (pairUp l).length = l.length / 2)
    ∧ (∀ (l : List Pt) (j : ℕ), 2 * j + 1 < l.length →
        (pairUp l).getD j ((0, 0), (0, 0)) =
          (l.getD (2 * j) (0, 0), l.getD (2 * j + 1) (0, 0)))
    ∧ (∀ (l : List Pt) (x : Pt), l.length % 2 = 0 → pairUp (l ++ [x]) = pairUp l)) :=
  ⟨by norm_num, C1_coverage_path trivGeo 1 (by norm_num)⟩

/-- Witness instantiating `C2_waypoint_synthesis` on a concrete backbone
segment of length 3 with spacing 5. -/
theorem C2_waypoint_synthesis_witness :
    (0 : ℚ) < geoOk.length (0, 0) (1, 0) ∧ (0 : ℚ) < 5 ∧
    ((lineWaypoints geoOk 5 ((0, 0), (1, 0)) =
      if 1 < geoOk.dist ((steppedPoints geoOk 5 ((0, 0), (1, 0))).getLastD
          (geoOk.along (0, 0) (1, 0) 0)) (1, 0) then
        steppedPoints geoOk 5 ((0, 0), (1, 0)) ++ [(1, 0)]
      else steppedPoints geoOk 5 ((0, 0), (1, 0)))
    ∧ (∀ k : ℕ, (k < climbCount 0 (geoOk.length (0, 0) (1, 0)) 5 ↔
        (k : ℚ) * 5 ≤ geoOk.length (0, 0) (1, 0)))
    ∧ ((lineWaypoints geoOk 5 ((0, 0), (1, 0))).getLast? = some (1, 0) ∨
        geoOk.dist ((lineWaypoints geoOk 5 ((0, 0), (1, 0))).getLastD
          (geoOk.along (0, 0) (1, 0) 0)) (1, 0) ≤ 1)
    ∧ (∀ (lines : List (Pt × Pt)) (i : ℕ), i < lines.length →
        (sweepWaypoints geoOk 5 lines).getD i [] =
          (if i % 2 = 1 then
            (lineWaypoints geoOk 5 (lines.getD i ((0, 0), (0, 0)))).reverse
          else lineWaypoints geoOk 5 (lines.getD i ((0, 0), (0, 0)))))) :=
  ⟨by norm_num [geoOk], by norm_num,
   C2_waypoint_synthesis geoOk ((0, 0), (1, 0)) 5 (by norm_num [geoOk]) (by norm_num)⟩

/-- Witness instantiating the amended `C3_headings` on a concrete two-point
plan with meridian bearings. -/
theorem C3_headings_witness :
    2 ≤ ([((0 : ℚ), (0 : ℚ)), ((0 : ℚ), (1 : ℚ))] : List Pt).length ∧
    (∀ p q : Pt, -180 < geoC3.bearing p q ∧ geoC3.bearing p q ≤ 180) ∧
    ((∀ i : ℕ, i + 1 < ([((0 : ℚ), (0 : ℚ)), ((0 : ℚ), (1 : ℚ))] : List Pt).length →
      (((formatWaypoints geoC3 fpOk 1 1
            [((0 : ℚ), (0 : ℚ)), ((0 : ℚ), (1 : ℚ))]).map Prod.fst).getD i default).heading =
        (if geoC3.bearing
            (([((0 : ℚ), (0 : ℚ)), ((0 : ℚ), (1 : ℚ))] : List Pt).getD i (0, 0))
            (([((0 : ℚ), (0 : ℚ)), ((0 : ℚ), (1 : ℚ))] : List Pt).getD (i + 1) (0, 0)) < 0 then
          geoC3.bearing
            (([((0 : ℚ), (0 : ℚ)), ((0 : ℚ), (1 : ℚ))] : List Pt).getD i (0, 0))
            (([((0 : ℚ), (0 : ℚ)), ((0 : ℚ), (1 : ℚ))] : List Pt).getD (i + 1) (0, 0)) + 360
        else geoC3.bearing
            (([((0 : ℚ), (0 : ℚ)), ((0 : ℚ), (1 : ℚ))] : List Pt).getD i (0, 0))
            (([((0 : ℚ), (0 : ℚ)), ((0 : ℚ), (1 : ℚ))] : List Pt).getD (i + 1) (0, 0))))
    ∧ ((((formatWaypoints geoC3 fpOk 1 1
            [((0 : ℚ), (0 : ℚ)), ((0 : ℚ), (1 : ℚ))]).map Prod.fst).getD
          (([((0 : ℚ), (0 : ℚ)), ((0 : ℚ), (1 : ℚ))] : List Pt).length - 1)
          default).heading =
        (if geoC3.bearing
            (([((0 : ℚ), (0 : ℚ)), ((0 : ℚ), (1 : ℚ))] : List Pt).getD
              (([((0 : ℚ), (0 : ℚ)), ((0 : ℚ), (1 : ℚ))] : List Pt).length - 1) (0, 0))
            (([((0 : ℚ), (0 : ℚ)), ((0 : ℚ), (1 : ℚ))] : List Pt).getD
              (([((0 : ℚ), (0 : ℚ)), ((0 : ℚ), (1 : ℚ))] : List Pt).length - 2) (0, 0)) < 0 then
          geoC3.bearing
            (([((0 : ℚ), (0 : ℚ)), ((0 : ℚ), (1 : ℚ))] : List Pt).getD
              (([((0 : ℚ), (0 : ℚ)), ((0 : ℚ), (1 : ℚ))] : List Pt).length - 1) (0, 0))
            (([((0 : ℚ), (0 : ℚ)), ((0 : ℚ), (1 : ℚ))] : List Pt).getD
              (([((0 : ℚ), (0 : ℚ)), ((0 : ℚ), (1 : ℚ))] : List Pt).length - 2) (0, 0)) + 360
        else geoC3.bearing
            (([((0 : ℚ), (0 : ℚ)), ((0 : ℚ), (1 : ℚ))] : List Pt).getD
              (([((0 : ℚ), (0 : ℚ)), ((0 : ℚ), (1 : ℚ))] : List Pt).length - 1) (0, 0))
            (([((0 : ℚ), (0 : ℚ)), ((0 : ℚ), (1 : ℚ))] : List Pt).getD
              (([((0 : ℚ), (0 : ℚ)), ((0 : ℚ), (1 : ℚ))] : List Pt).length - 2) (0, 0))))
    ∧ (∀ w ∈ (formatWaypoints geoC3 fpOk 1 1
          [((0 : ℚ), (0 : ℚ)), ((0 : ℚ), (1 : ℚ))]).map Prod.fst,
        0 ≤ w.heading ∧ w.heading < 360)) :=
  ⟨by norm_num,
   fun p q => by
     simp only [geoC3, trivGeo]
     split <;> norm_num,
   C3_headings geoC3 fpOk 1 1 [((0 : ℚ), (0 : ℚ)), ((0 : ℚ), (1 : ℚ))] (by norm_num)
     (fun p q => by
       simp only [geoC3, trivGeo]
       split <;> norm_num)⟩

/-- Witness instantiating `C4_overlap_guard` at concrete positive camera and
flight parameters. -/
theorem C4_overlap_guard_witness :
    (0 : ℚ) < camOk.sensorWidth ∧ (0 : ℚ) < camOk.focalLength ∧
    (0 : ℚ) < camOk.imageWidth ∧ (0 : ℚ) < camOk.imageHeight ∧
    (0 : ℚ) < fpOk.altitude ∧
    (((0 ≤ fpOk.frontOverlap ∧ fpOk.frontOverlap < 100 ∧ 0 ≤ fpOk.sideOverlap ∧
        fpOk.sideOverlap < 100) →
      0 < distanceAlongTrackOf fpOk camOk ∧ 0 < distanceSideTrackOf fpOk camOk ∧
      generateFlightPlan trivGeo fpOk camOk ≠
        Except.error "Overlap values must be less than 100%.")
    ∧ ((100 ≤ fpOk.frontOverlap ∨ 100 ≤ fpOk.sideOverlap) →
      generateFlightPlan trivGeo fpOk camOk =
        Except.error "Overlap values must be less than 100%.")) :=
  ⟨by norm_num [camOk], by norm_num [camOk], by norm_num [camOk], by norm_num [camOk],
   by norm_num [fpOk],
   C4_overlap_guard trivGeo fpOk camOk (by norm_num [camOk]) (by norm_num [camOk])
     (by norm_num [camOk]) (by norm_num [camOk]) (by norm_num [fpOk])⟩

/-- Witness instantiating `C5_filter` on the concrete one-line plan. -/
theorem C5_filter_witness :
    fpsOk.length = wlinesOk.flatten.length ∧ wlinesOk ≠ [] ∧
    ((fparW.enabled = false →
      filterEffect fparW wlinesOk (some fpsOk) = (wlinesOk.flatten, some fpsOk))
    ∧ (fparW.enabled = true →
      filterEffect fparW wlinesOk (some fpsOk) =
        ((wlinesOk.map (keepLine fparW.keepStart fparW.keepEnd)).flatten,
         some (((chunkBy (wlinesOk.map List.length) fpsOk).map
           (keepLine fparW.keepStart fparW.keepEnd)).flatten)))
    ∧ (∀ line : List Waypoint, line.length ≤ fparW.keepStart + fparW.keepEnd →
        keepLine fparW.keepStart fparW.keepEnd line = line)
    ∧ (∀ line : List Waypoint, fparW.keepStart + fparW.keepEnd < line.length →
        keepLine fparW.keepStart fparW.keepEnd line =
          line.take fparW.keepStart ++ line.drop (line.length - fparW.keepEnd)
        ∧ (keepLine fparW.keepStart fparW.keepEnd line).length =
            fparW.keepStart + fparW.keepEnd)) :=
  ⟨rfl, by decide, C5_filter fparW wlinesOk fpsOk rfl (by decide)⟩

/-- Witness instantiating `C6_elevation_merge` on the concrete one-waypoint
plan with one numeric elevation sample. -/
theorem C6_elevation_merge_witness :
    ([some (2 : ℚ)] : Elevations).length = wlinesOk.flatten.length ∧
    (((mergeAltitudes 1 wlinesOk [some (2 : ℚ)]).map List.length =
        wlinesOk.map List.length)
    ∧ (mergeAltitudes 1 wlinesOk [some (2 : ℚ)]).flatten =
        List.zipWith (mergeWp 1) wlinesOk.flatten [some (2 : ℚ)]
    ∧ (∀ (wp : Waypoint) (e : ℚ), mergeWp 1 wp (some e) =
        { wp with altitude := roundTo2 (e + 1) })
    ∧ (∀ wp : Waypoint, mergeWp 1 wp none = wp)) :=
  ⟨rfl, C6_elevation_merge 1 wlinesOk [some (2 : ℚ)] rfl⟩

/-- Witness instantiating `C7_getElevations` at a concrete batch oracle and
waypoint list. -/
theorem C7_getElevations_witness :
    (getElevations (fun _ => FetchResult.ok [some (3 : ℚ)]) wlinesOk.flatten).length =
      wlinesOk.flatten.length
    ∧ (wlinesOk.flatten = [] →
        getElevations (fun _ => FetchResult.ok [some (3 : ℚ)]) wlinesOk.flatten = [])
    ∧ (∀ j : Nat, j < wlinesOk.flatten.length →
        (getElevations (fun _ => FetchResult.ok [some (3 : ℚ)]) wlinesOk.flatten).getD
            j none =
          specElev (fun _ => FetchResult.ok [some (3 : ℚ)]) wlinesOk.flatten j) :=
  C7_getElevations (fun _ => FetchResult.ok [some (3 : ℚ)]) wlinesOk.flatten

/-- Witness instantiating `C8_stats` at a concrete positive speed and
non-negative distance oracle. -/
theorem C8_stats_witness :
    (0 : ℚ) < 1 ∧ (∀ p q : Pt, (0 : ℚ) ≤ (fun _ _ => (0 : ℚ)) p q) ∧
    ((computeStats (fun _ _ => (0 : ℚ)) wlinesOk.flatten wlinesOk 1 camOk = none ↔
      wlinesOk.flatten = [] ∨ wlinesOk = [])
    ∧ (∀ s : Stats,
        computeStats (fun _ _ => (0 : ℚ)) wlinesOk.flatten wlinesOk 1 camOk = some s →
        s.totalDistance = roundTo2 (pathLength (fun _ _ => (0 : ℚ)) wlinesOk.flatten / 1000)
        ∧ s.flightMinutes = ⌊pathLength (fun _ _ => (0 : ℚ)) wlinesOk.flatten / 1 / 60⌋
        ∧ s.flightSeconds = ⌊pathLength (fun _ _ => (0 : ℚ)) wlinesOk.flatten / 1 -
            60 * (⌊pathLength (fun _ _ => (0 : ℚ)) wlinesOk.flatten / 1 / 60⌋ : ℚ)⌋
        ∧ s.photoCount = wlinesOk.flatten.length
        ∧ s.dataVolume = roundTo2 ((wlinesOk.flatten.length : ℚ) * camOk.imageWidth *
            camOk.imageHeight / 1000000000)
        ∧ s.totalWaypoints = wlinesOk.flatten.length
        ∧ s.flightLines = wlinesOk.length)
    ∧ pathLength (fun _ _ => (0 : ℚ)) wlinesOk.flatten =
        ((wlinesOk.flatten.zip wlinesOk.flatten.tail).map
          (fun pq => (fun _ _ => (0 : ℚ)) (toPt pq.1) (toPt pq.2))).sum) :=
  ⟨by norm_num, fun p q => le_refl 0,
   C8_stats (fun _ _ => (0 : ℚ)) wlinesOk.flatten wlinesOk 1 camOk (by norm_num)
     (fun p q => le_refl 0)⟩

/-- Witness instantiating `C9_pairing` on the concrete successful plan. -/
theorem C9_pairing_witness :
    generateFlightPlan geoOk fpOk camOk = Except.ok (wlinesOk, fpsOk) ∧
    (fpsOk.length = wlinesOk.flatten.length
    ∧ (∀ ring ∈ fpsOk, ring.length = 5 ∧ ring.head? = ring.getLast?)
    ∧ (∃ finalWps : List Pt,
        wlinesOk.flatten = (formatWaypoints geoOk fpOk (footprintWidthOf fpOk camOk)
          (footprintHeightOf fpOk camOk) finalWps).map Prod.fst
        ∧ fpsOk = (formatWaypoints geoOk fpOk (footprintWidthOf fpOk camOk)
          (footprintHeightOf fpOk camOk) finalWps).map Prod.snd)
    ∧ (∀ (fpar : FilterParams) (lines : List (List Waypoint)) (ofps : List Footprint),
        ofps.length = lines.flatten.length →
        ((filterEffect fpar lines (some ofps)).2.getD []).length =
          (filterEffect fpar lines (some ofps)).1.length
        ∧ List.Sublist
            ((filterEffect fpar lines (some ofps)).1.zip
              ((filterEffect fpar lines (some ofps)).2.getD []))
            ((lines.flatten).zip ofps))) :=
  ⟨geoOk_plan_eval, C9_pairing geoOk fpOk camOk wlinesOk fpsOk geoOk_plan_eval⟩

/-- Witness instantiating `C10_constant_fields` on the concrete successful
plan. -/
theorem C10_constant_fields_witness :
    generateFlightPlan geoOk fpOk camOk = Except.ok (wlinesOk, fpsOk) ∧
    (∀ w ∈ wlinesOk.flatten,
      w.altitude = fpOk.altitude ∧ w.gimbalPitch = fpOk.gimbalPitch ∧
        w.speed = fpOk.speed) :=
  ⟨geoOk_plan_eval, C10_constant_fields geoOk fpOk camOk wlinesOk fpsOk geoOk_plan_eval⟩

end FlightPlanner
